import Mathlib

/-!
Verification of the capacity controller of brunosccosta/shipper
(`pkg/controller/capacity/capacity_controller.go`).

The Go code's float64 arithmetic is embedded exactly: IEEE-754 binary64
round-to-nearest, ties-to-even, is modelled as a computable function on ℚ
(the inputs involved never leave the normal range, so neither subnormals
nor overflow can occur and the dyadic rounding below coincides with the
hardware semantics).
-/

namespace Shipper

/-- Fuel-driven base-2 floor logarithm on ℕ: `natLog2 fuel n` is `⌊log₂ n⌋`
whenever `1 ≤ n < 2 ^ fuel`.  Structural recursion on `fuel` keeps it
kernel-reducible. -/
def natLog2 : ℕ → ℕ → ℕ
  | 0, _ => 0
  | fuel + 1, n => if n < 2 then 0 else natLog2 fuel (n / 2) + 1

/-- Fuel-driven base-2 ceiling logarithm on ℕ: `natClog2 fuel c` is
`⌈log₂ c⌉` whenever `1 ≤ c ≤ 2 ^ fuel`. -/
def natClog2 : ℕ → ℕ → ℕ
  | 0, _ => 0
  | fuel + 1, c => if c ≤ 1 then 0 else natClog2 fuel ((c + 1) / 2) + 1

/-- `⌊log₂ q⌋` for a positive rational, as an integer.  Used to locate the
binade of a value before rounding it to binary64 precision. -/
def floorLog2 (q : ℚ) : ℤ :=
  if 1 ≤ q then (natLog2 64 ⌊q⌋₊ : ℤ) else -(natClog2 64 ⌈q⁻¹⌉₊ : ℤ)

/-- Round a scaled mantissa to the nearest integer, ties to even. -/
def mantissaRound (m : ℚ) : ℤ :=
  if m - ⌊m⌋ < 1/2 then ⌊m⌋
  else if 1/2 < m - ⌊m⌋ then ⌊m⌋ + 1
  else if ⌊m⌋ % 2 = 0 then ⌊m⌋ else ⌊m⌋ + 1

/-- Round `q` to 53 significant bits assuming its binade starts at `2 ^ e`:
scale so that the mantissa occupies 53 bits, round to integer (nearest,
ties to even), scale back. -/
def roundAt (q : ℚ) (e : ℤ) : ℚ :=
  (mantissaRound (q * 2 ^ ((52 : ℤ) - e)) : ℚ) / 2 ^ ((52 : ℤ) - e)

/-- Round a positive rational to the nearest binary64 value
(53 significant bits, ties to even), expressed exactly as a rational. -/
def roundPosDouble (q : ℚ) : ℚ :=
  roundAt q (floorLog2 q)

/-- IEEE-754 binary64 rounding of a rational (round to nearest, ties to
even), for values in the normal range. -/
def roundDouble (q : ℚ) : ℚ :=
  if 0 < q then roundPosDouble q
  else if q < 0 then -roundPosDouble (-q)
  else 0

/-- Embedding of `calculateReplicaCountFromPercentage` (capacity_controller.go
lines 382-386):
`result := float64(percentage) / 100 * float64(total); return int32(math.Ceil(result))`.
The `int32` conversions are modelled on ℤ (no wrap-around occurs for the
annotation totals and percentages the controller is used with); the two
float64 operations — the division by 100 and the multiplication by the
total — are each one binary64 rounding, exactly as in the source. -/
def calculateReplicaCountFromPercentage (total percentage : ℤ) : ℤ :=
  ⌈roundDouble (roundDouble ((percentage : ℚ) / 100) * (total : ℚ))⌉

/-- Modelled from the spec: `calculatePercentageFromAmount` is called by the
sync handler (line 299) but its body is not among the repository files under
`src/`; per the spec (§4.1) `AchievedPercent` is "the inverse computation
used only for reporting".  Its value is checked by no claim.  (Division by a
zero total yields 0 under ℚ conventions.) -/
def calculatePercentageFromAmount (total amount : ℤ) : ℤ :=
  ⌈(amount : ℚ) * 100 / (total : ℚ)⌉

/-! ## Data model

`pkg/apis/shipper/v1/types.go` as staged under `src/` is an older revision
of the API (its `ClusterCapacityStatus` has only name/achievedReplicas/status
and its `ClusterCapacityTarget` has `Replicas`, not `Percent`), while the
controller reads `clusterSpec.Percent`, `clusterStatus.AvailableReplicas`,
`clusterStatus.AchievedPercent`, `clusterStatus.SadPods` and per-cluster
conditions.  The structures below therefore follow the controller's own
field usage (which pins the up-to-date shape of the types), and the
condition machinery from `pkg/util/cluster` / `pkg/conditions` — code of the
repository not under `src/` — is modelled from the spec (§3 "Condition",
§4.2), with `LastTransitionTime` bookkeeping omitted: no claim concerns
timestamps.  Condition and event messages are carried as strings; `fmt`
formatting of numbers into them is abbreviated (no claim reads a message). -/

/-- Condition types (`shipperv1.ClusterConditionTypeReady` /
`ClusterConditionTypeOperational`). -/
inductive ConditionType where
  | ready
  | operational
deriving DecidableEq, Repr

/-- `corev1.ConditionTrue/False/Unknown`. -/
inductive ConditionStatus where
  | conditionTrue
  | conditionFalse
  | conditionUnknown
deriving DecidableEq, Repr

/-- Modelled from the spec: the reason constants of `pkg/conditions`
(§3: "Reasons form a small closed enum: ServerError, WrongPodCount,
PodsNotReady, MissingDeployment"). -/
def ServerError : String := "ServerError"

/-- Modelled from the spec: reason constant of `pkg/conditions`. -/
def WrongPodCount : String := "WrongPodCount"

/-- Modelled from the spec: reason constant of `pkg/conditions`. -/
def PodsNotReady : String := "PodsNotReady"

/-- Modelled from the spec: reason constant of `pkg/conditions`. -/
def MissingDeployment : String := "MissingDeployment"

/-- A per-cluster condition (`shipperv1.ClusterCapacityCondition`), without
the `LastTransitionTime` field (no claim concerns timestamps). -/
structure ClusterCapacityCondition where
  ctype : ConditionType
  status : ConditionStatus
  reason : String
  message : String
deriving DecidableEq, Repr

/-- Sad-pod diagnostic entry (`shipperv1.PodStatus`); the diagnostic payload
is abstracted to the pod name, which no claim inspects further. -/
structure PodStatus where
  podName : String
deriving DecidableEq, Repr

/-- `shipperv1.ClusterCapacityStatus` as the controller uses it:
name, available replicas, achieved percent, sad pods, conditions. -/
structure ClusterCapacityStatus where
  name : String
  availableReplicas : ℤ
  achievedPercent : ℤ
  sadPods : List PodStatus
  conditions : List ClusterCapacityCondition
deriving DecidableEq, Repr

/-- The zero value `shipperv1.ClusterCapacityStatus{Name: clusterSpec.Name}`
appended at line 270. -/
def zeroClusterStatus (n : String) : ClusterCapacityStatus :=
  ⟨n, 0, 0, [], []⟩

/-- Modelled from the spec:
`clusterutil.SetClusterCapacityCondition` (`pkg/util/cluster`, not under
`src/`), per §4.2: "inserts or updates the condition of the given type"; the
only behaviour §4.2 distinguishes beyond replacement is transition-time
bookkeeping, which is omitted here. -/
def setClusterCapacityCondition (e : ClusterCapacityStatus)
    (c : ClusterCapacityCondition) : ClusterCapacityStatus :=
  { e with conditions :=
      if e.conditions.any (fun x => x.ctype = c.ctype) then
        e.conditions.map (fun x => if x.ctype = c.ctype then c else x)
      else
        e.conditions ++ [c] }

/-- Does the status carry a condition of this type with this status value? -/
def hasCondition (e : ClusterCapacityStatus) (t : ConditionType)
    (s : ConditionStatus) : Bool :=
  e.conditions.any (fun c => c.ctype = t && c.status = s)

/-- A target deployment (`appsv1.Deployment`) as the controller reads it:
`Spec.Replicas` is a nullable pointer, `Status.AvailableReplicas` a plain
count. -/
structure Deployment where
  name : String
  replicas : Option ℤ
  availableReplicas : ℤ
deriving DecidableEq, Repr

/-- `shipperv1.ClusterCapacityTarget` as the controller uses it
(`clusterSpec.Name`, `clusterSpec.Percent`). -/
structure ClusterCapacityTarget where
  name : String
  percent : ℤ
deriving DecidableEq, Repr

/-- `metav1.OwnerReference`, restricted to the fields the controller reads. -/
structure OwnerReference where
  name : String
  uid : String
deriving DecidableEq, Repr

/-- `shipperv1.CapacityTarget`: owner references, spec clusters, status
clusters. -/
structure CapacityTarget where
  ownerReferences : List OwnerReference
  spec : List ClusterCapacityTarget
  status : List ClusterCapacityStatus
deriving DecidableEq, Repr

/-- `shipperv1.Release` as the controller reads it: UID plus the
already-parsed `shipperv1.ReleaseReplicasAnnotation` (`none` models a
missing or unparsable annotation, i.e. a `strconv.Atoi` failure). -/
structure Release where
  uid : String
  totalReplicas : Option ℤ
deriving DecidableEq, Repr

/-! ## Environment

The handler's external collaborators — the release lister, each cluster's
informer-backed deployment cache, each cluster's typed client (patch), the
pod cache, and the status-update call — are read-only inputs of a sync, so
they are modelled as an environment record consulted by name.  Each result
type mirrors the Go call's success/error structure. -/

/-- Outcome of `GetInformerFactory` + `Deployments().Lister().List` for one
cluster: store error, list error, or the listed deployments. -/
inductive DeploymentsResult where
  | storeErr (msg : String)
  | listErr (msg : String)
  | ok (ds : List Deployment)
deriving DecidableEq, Repr

/-- Outcome of `GetClient` + `Deployments().Patch` for one cluster. -/
inductive PatchResult where
  | clientErr (msg : String)
  | patchErr (msg : String)
  | ok
deriving DecidableEq, Repr

/-- Outcome of `getSadPodsForDeploymentOnCluster` (pod inspector, not under
`src/`; its contract is §4.3 of the spec: `(podCount, sadCount, sadPods,
error)`). -/
inductive PodsResult where
  | err (msg : String)
  | ok (podCount : ℤ) (sadPodsCount : ℕ) (sadPods : List PodStatus)
deriving DecidableEq, Repr

/-- The collaborators of one sync. -/
structure Env where
  releases : String → Option Release
  deployments : String → DeploymentsResult
  patch : String → PatchResult
  pods : String → PodsResult
  updateError : Option String

/-- `corev1.EventTypeNormal` / `corev1.EventTypeWarning`. -/
inductive EventType where
  | normal
  | warning
deriving DecidableEq, Repr

/-- An event recorded against the capacity target (type and reason; the
formatted message is not modelled — no claim reads one). -/
structure Event where
  etype : EventType
  reason : String
deriving DecidableEq, Repr

/-- A strategic-merge-patch API call issued against a cluster
(`patchDeploymentWithReplicaCount` line 475); `succeeded` records the call's
outcome. -/
structure PatchCall where
  clusterName : String
  deploymentName : String
  replicas : ℤ
  succeeded : Bool
deriving DecidableEq, Repr

/-! ## The sync algorithm (capacity_controller.go lines 216-350, 365-483) -/

/-- Why a sync returns early with an error (lines 237-246). -/
inductive SyncError where
  | multipleOwnerReferences (n : ℕ)
  | releaseNotFound (name : String)
  | releaseIsGone
  | annotationParse
deriving DecidableEq, Repr

/-- Embedding of `getReleaseForCapacityTarget` (lines 365-380): owner count
must be exactly 1, the named release must exist, and its live UID must equal
the stored owner UID. -/
def getReleaseForCapacityTarget (env : Env) (ct : CapacityTarget) :
    Except SyncError Release :=
  match ct.ownerReferences with
  | [owner] =>
    match env.releases owner.name with
    | none => .error (.releaseNotFound owner.name)
    | some release =>
      if release.uid ≠ owner.uid then .error .releaseIsGone else .ok release
  | refs => .error (.multipleOwnerReferences refs.length)

/-- Embedding of `findTargetDeploymentForClusterSpec` (lines 427-455):
store/list errors set Operational=False (ServerError); a deployment count
other than exactly 1 sets Ready=False (MissingDeployment); on success the
single listed deployment is returned.  `none` models the Go error return. -/
def findTargetDeploymentForClusterSpec (env : Env) (cs : ClusterCapacityTarget)
    (clusterStatus : ClusterCapacityStatus) :
    ClusterCapacityStatus × Option Deployment :=
  match env.deployments cs.name with
  | .storeErr msg =>
    (setClusterCapacityCondition clusterStatus
      ⟨.operational, .conditionFalse, ServerError, msg⟩, none)
  | .listErr msg =>
    (setClusterCapacityCondition clusterStatus
      ⟨.operational, .conditionFalse, ServerError, msg⟩, none)
  | .ok ds =>
    match ds with
    | [d] => (clusterStatus, some d)
    | _ =>
      (setClusterCapacityCondition clusterStatus
        ⟨.ready, .conditionFalse, MissingDeployment,
          "expected exactly 1 deployment on cluster " ++ cs.name⟩, none)

/-- Embedding of `patchDeploymentWithReplicaCount` (lines 465-483): a client
lookup failure means no API call is issued; a patch failure means the call
was issued but failed; both set Operational=False (ServerError).  The Bool
is the Go success/error distinction; the list records the API calls made. -/
def patchDeploymentWithReplicaCount (env : Env) (d : Deployment)
    (clusterName : String) (replicaCount : ℤ)
    (clusterStatus : ClusterCapacityStatus) :
    ClusterCapacityStatus × Bool × List PatchCall :=
  match env.patch clusterName with
  | .clientErr msg =>
    (setClusterCapacityCondition clusterStatus
      ⟨.operational, .conditionFalse, ServerError, msg⟩, false, [])
  | .patchErr msg =>
    (setClusterCapacityCondition clusterStatus
      ⟨.operational, .conditionFalse, ServerError, msg⟩, false,
      [⟨clusterName, d.name, replicaCount, false⟩])
  | .ok => (clusterStatus, true, [⟨clusterName, d.name, replicaCount, true⟩])

/-- Result of `getSadPods`: `panicked` models the nil-pointer dereference in
`NewInvalidPodCountError(*targetDeployment.Spec.Replicas, ...)` (line 413)
when `Spec.Replicas` is nil; `failed` the ordinary error returns. -/
inductive SadPodsOutcome where
  | panicked
  | failed
  | ok (sadPods : List PodStatus)
deriving DecidableEq, Repr

/-- Embedding of `getSadPods` (lines 404-425).  The pod listing is keyed by
`clusterStatus.Name` as in the source.  The branch
`Spec.Replicas == nil || int(*Spec.Replicas) != podCount` is entered when
the pointer is nil, and building the error then dereferences that nil
pointer, so the nil case panics instead of producing the WrongPodCount
condition. -/
def getSadPods (env : Env) (d : Deployment)
    (clusterStatus : ClusterCapacityStatus) :
    ClusterCapacityStatus × SadPodsOutcome :=
  match env.pods clusterStatus.name with
  | .err msg =>
    (setClusterCapacityCondition clusterStatus
      ⟨.operational, .conditionFalse, ServerError, msg⟩, .failed)
  | .ok podCount sadPodsCount sadPods =>
    match d.replicas with
    | none => (clusterStatus, .panicked)
    | some r =>
      if r ≠ podCount then
        (setClusterCapacityCondition clusterStatus
          ⟨.ready, .conditionFalse, WrongPodCount, "invalid pod count"⟩,
          .failed)
      else if sadPodsCount > 0 then
        (setClusterCapacityCondition clusterStatus
          ⟨.ready, .conditionFalse, PodsNotReady, "there are sad pods"⟩,
          .ok sadPods)
      else (clusterStatus, .ok sadPods)

/-- One cluster's contribution to the sync: the (possibly) mutated status
entry, patch API calls issued, events recorded; `panic` propagates the
nil-pointer crash of `getSadPods`, which aborts the whole handler. -/
inductive ReconOut where
  | panic (entry : ClusterCapacityStatus) (patchCalls : List PatchCall)
      (events : List Event)
  | done (entry : ClusterCapacityStatus) (patchCalls : List PatchCall)
      (events : List Event)
deriving DecidableEq, Repr

/-- The status entry a reconciliation outcome carries. -/
def ReconOut.entry : ReconOut → ClusterCapacityStatus
  | .panic e _ _ => e
  | .done e _ _ => e

/-- Lines 297-326: after deployment discovery and (if needed) the patch,
record availability, run the sad-pod inspection and either stop (error /
sad pods found) or set both conditions to True and record the success
event.  `targetDeployment` here is the cached object — the patched
deployment returned by the API is discarded at line 289 (`_, err = ...`). -/
def reconcileObserve (env : Env) (total : ℤ) (d : Deployment)
    (e : ClusterCapacityStatus) (pcs : List PatchCall) : ReconOut :=
  let e₁ := { e with availableReplicas := d.availableReplicas,
                     achievedPercent :=
                       calculatePercentageFromAmount total d.availableReplicas }
  match getSadPods env d e₁ with
  | (e₂, .panicked) => .panic e₂ pcs []
  | (e₂, .failed) => .done e₂ pcs []
  | (e₂, .ok sadPods) =>
    if sadPods ≠ [] then .done { e₂ with sadPods := sadPods } pcs []
    else
      .done
        (setClusterCapacityCondition
          (setClusterCapacityCondition e₂ ⟨.ready, .conditionTrue, "", ""⟩)
          ⟨.operational, .conditionTrue, "", ""⟩)
        pcs [⟨.normal, "CapacityChanged"⟩]

/-- The body of the per-cluster loop (lines 251-327) for one cluster spec,
acting on the status entry `e` the loop resolved for this cluster.
Failures of discovery or patching record a warning event
(`recordErrorEvent`, reason FailedCapacityChange) and finish this cluster;
a `getSadPods` failure finishes it silently (`continue` at line 302). -/
def reconcileClusterSpec (env : Env) (total : ℤ) (cs : ClusterCapacityTarget)
    (e : ClusterCapacityStatus) : ReconOut :=
  match findTargetDeploymentForClusterSpec env cs e with
  | (e', none) => .done e' [] [⟨.warning, "FailedCapacityChange"⟩]
  | (e', some d) =>
    let replicaCount := calculateReplicaCountFromPercentage total cs.percent
    if d.replicas = some replicaCount then
      reconcileObserve env total d e' []
    else
      match patchDeploymentWithReplicaCount env d cs.name replicaCount e' with
      | (e₂, false, pcs) => .done e₂ pcs [⟨.warning, "FailedCapacityChange"⟩]
      | (e₂, true, pcs) => reconcileObserve env total d e₂ pcs

/-- Accumulated state of the per-cluster loop. -/
structure LoopState where
  status : List ClusterCapacityStatus
  patchCalls : List PatchCall
  events : List Event
  panicked : Bool
deriving DecidableEq, Repr

/-- The index the Go search loop (lines 257-264) leaves in `clusterStatus`:
the last entry whose name matches. -/
def lastIndexOf (n : String) : List ClusterCapacityStatus → Option ℕ
  | [] => none
  | e :: rest =>
    match lastIndexOf n rest with
    | some i => some (i + 1)
    | none => if e.name = n then some 0 else none

/-- One iteration of the per-cluster loop.  When an entry named for the
cluster exists, the loop holds a pointer into the slice, so the mutated
entry replaces the element (`s.status.set i e'`).  When none exists, the
zero entry is appended **by value** (line 270) while the pointer keeps
aiming at the local struct, so the reconciler's mutations are discarded and
only the zero entry survives in the slice. -/
def syncStep (env : Env) (total : ℤ) (s : LoopState)
    (cs : ClusterCapacityTarget) : LoopState :=
  match lastIndexOf cs.name s.status with
  | some i =>
    match reconcileClusterSpec env total cs
        (s.status.getD i (zeroClusterStatus cs.name)) with
    | .done e' pcs evs =>
      ⟨s.status.set i e', s.patchCalls ++ pcs, s.events ++ evs, s.panicked⟩
    | .panic _ pcs evs =>
      ⟨s.status, s.patchCalls ++ pcs, s.events ++ evs, true⟩
  | none =>
    match reconcileClusterSpec env total cs (zeroClusterStatus cs.name) with
    | .done _ pcs evs =>
      ⟨s.status ++ [zeroClusterStatus cs.name], s.patchCalls ++ pcs,
        s.events ++ evs, s.panicked⟩
    | .panic _ pcs evs =>
      ⟨s.status ++ [zeroClusterStatus cs.name], s.patchCalls ++ pcs,
        s.events ++ evs, true⟩

/-- The per-cluster loop over `ct.Spec.Clusters`, in spec order; a panic
aborts it. -/
def syncLoop (env : Env) (total : ℤ) :
    List ClusterCapacityTarget → LoopState → LoopState
  | [], s => s
  | cs :: rest, s =>
    if s.panicked then s else syncLoop env total rest (syncStep env total s cs)

/-- Lexicographic comparison of character lists (an executable spelling of
`≤` on `String`, proved equivalent to it below). -/
def leAux : List Char → List Char → Bool
  | [], _ => true
  | _ :: _, [] => false
  | x :: xs, y :: ys =>
    if x < y then true else if y < x then false else leAux xs ys

/-- Modelled from the spec: the `byClusterName` sort type behind
`sort.Sort(byClusterName(ct.Status.Clusters))` (line 329) is not under
`src/`; per the spec (§4.5) the handler "sorts the resulting status list by
cluster name".  The comparison `leAux` is string order (the lemma
`leAux_iff_le` identifies it with `≤` on the names). -/
def sortByClusterName (l : List ClusterCapacityStatus) :
    List ClusterCapacityStatus :=
  List.insertionSort (fun a b => leAux a.name.data b.name.data = true) l

/-- The loop state after the whole per-cluster loop of one sync, starting
from the deep-copied object's status with no patches, events or panic. -/
def syncedState (env : Env) (total : ℤ) (ct : CapacityTarget) : LoopState :=
  syncLoop env total ct.spec ⟨ct.status, [], [], false⟩

/-- How a sync run ends: a Go panic, an error return, or a nil return. -/
inductive SyncOutcome where
  | panicked
  | failed (e : SyncError)
  | completed
deriving DecidableEq, Repr

/-- A sync's observable behaviour: its outcome, the patch API calls issued
against target clusters, the object passed to the single
`CapacityTargets(...).Update` call (when reached), and the events recorded. -/
structure SyncResult where
  outcome : SyncOutcome
  patchCalls : List PatchCall
  updateAttempted : Option CapacityTarget
  events : List Event
deriving DecidableEq, Repr

/-- Embedding of `capacityTargetSyncHandler` (lines 216-350), from the point
where the capacity target has been fetched and deep-copied (line 237): owner
and annotation validation, the per-cluster loop, the sort, the single update
call (a failure records a warning event), and the final Normal event.  The
handler returns nil (`completed`) whatever happened per cluster; it errors
only on validation, and it crashes (`panicked`) when the nil-replicas
dereference of `getSadPods` fires. -/
def capacityTargetSyncHandler (env : Env) (ct : CapacityTarget) : SyncResult :=
  match getReleaseForCapacityTarget env ct with
  | .error e => ⟨.failed e, [], none, []⟩
  | .ok release =>
    match release.totalReplicas with
    | none => ⟨.failed .annotationParse, [], none, []⟩
    | some totalReplicaCount =>
      if (syncedState env totalReplicaCount ct).panicked then
        ⟨.panicked, (syncedState env totalReplicaCount ct).patchCalls, none,
          (syncedState env totalReplicaCount ct).events⟩
      else
        ⟨.completed, (syncedState env totalReplicaCount ct).patchCalls,
          some { ct with status :=
            sortByClusterName (syncedState env totalReplicaCount ct).status },
          (syncedState env totalReplicaCount ct).events
            ++ (match env.updateError with
                | some _ => [⟨.warning, "FailedCapacityTargetChange"⟩]
                | none => [])
            ++ [⟨.normal, "CapacityTargetChanged"⟩]⟩

/-! ## Concrete scenarios used to witness or refute the claims -/

/-- A capacity target with zero owner references. -/
def c2Ct : CapacityTarget := ⟨[], [⟨"c1", 50⟩], []⟩

/-- An environment in which nothing is reachable; the owner validation fails
before any of it is consulted. -/
def c2Env : Env :=
  ⟨fun _ => none, fun _ => .storeErr "down", fun _ => .ok,
    fun _ => .err "down", none⟩

/-- A healthy two-cluster environment (release total 10; one deployment per
cluster already at 3 replicas; 3 ready pods). -/
def c3Env : Env :=
  ⟨fun n => if n = "rel" then some ⟨"u1", some 10⟩ else none,
    fun _ => .ok [⟨"dep", some 3, 3⟩], fun _ => .ok, fun _ => .ok 3 0 [], none⟩

/-- Status entries deliberately in reverse name order, spec likewise. -/
def c3Ct : CapacityTarget :=
  ⟨[⟨"rel", "u1"⟩], [⟨"b", 30⟩, ⟨"a", 30⟩],
    [zeroClusterStatus "b", zeroClusterStatus "a"]⟩

/-- Three clusters; only `b`'s informer store fails. -/
def c4Env : Env :=
  ⟨fun n => if n = "rel" then some ⟨"u1", some 10⟩ else none,
    fun n => if n = "b" then .storeErr "boom" else .ok [⟨"dep", some 3, 3⟩],
    fun _ => .ok, fun _ => .ok 3 0 [], none⟩

/-- Three spec clusters with pre-existing status entries for each. -/
def c4Ct : CapacityTarget :=
  ⟨[⟨"rel", "u1"⟩], [⟨"a", 30⟩, ⟨"b", 30⟩, ⟨"c", 30⟩],
    [zeroClusterStatus "a", zeroClusterStatus "b", zeroClusterStatus "c"]⟩

/-- Two deployments match the capacity target's selector on cluster `c1`. -/
def c5Env : Env :=
  ⟨fun _ => none,
    fun _ => .ok [⟨"d1", some 1, 1⟩, ⟨"d2", some 1, 1⟩],
    fun _ => .ok, fun _ => .ok 1 0 [], none⟩

/-- The deployment asks for 3 replicas but the pod cache reports 2 pods. -/
def c6Env : Env :=
  ⟨fun _ => none, fun _ => .ok [⟨"dep", some 3, 2⟩], fun _ => .ok,
    fun _ => .ok 2 0 [], none⟩

/-- Owner and annotation validation pass, but the single cluster's cached
deployment has a nil `Spec.Replicas`, so the patch is issued (its result is
discarded) and `getSadPods` then dereferences the nil pointer. -/
def c7Env : Env :=
  ⟨fun n => if n = "rel" then some ⟨"u1", some 3⟩ else none,
    fun n => if n = "c1" then .ok [⟨"dep", none, 0⟩] else .storeErr "no",
    fun _ => .ok, fun _ => .ok 2 0 [], none⟩

/-- The capacity target owning scenario `c7Env`'s sync. -/
def c7Ct : CapacityTarget := ⟨[⟨"rel", "u1"⟩], [⟨"c1", 50⟩], []⟩

/-- A healthy single-cluster environment whose status update call fails. -/
def c7okEnv : Env :=
  ⟨fun n => if n = "rel" then some ⟨"u1", some 10⟩ else none,
    fun _ => .ok [⟨"dep", some 3, 3⟩], fun _ => .ok, fun _ => .ok 3 0 [],
    some "update refused"⟩

/-- The capacity target for the update-failure scenario. -/
def c7okCt : CapacityTarget :=
  ⟨[⟨"rel", "u1"⟩], [⟨"a", 30⟩], [zeroClusterStatus "a"]⟩

/-- A cluster whose reconciliation sets conditions, availability and sad
pods — all of which the aliasing bug then discards for a fresh entry. -/
def c9Env : Env :=
  ⟨fun n => if n = "rel" then some ⟨"u1", some 10⟩ else none,
    fun _ => .ok [⟨"dep", some 3, 3⟩], fun _ => .ok,
    fun _ => .ok 3 2 [⟨"sad-pod-1"⟩], none⟩

/-- A spec cluster `a` with no pre-existing status entry. -/
def c9Ct : CapacityTarget := ⟨[⟨"rel", "u1"⟩], [⟨"a", 30⟩], []⟩

/-- Same nil-`Spec.Replicas` crash scenario, staged for claim C10. -/
def c10Env : Env :=
  ⟨fun n => if n = "rel" then some ⟨"u1", some 3⟩ else none,
    fun n => if n = "c1" then .ok [⟨"dep", none, 0⟩] else .storeErr "no",
    fun _ => .ok, fun _ => .ok 2 0 [], none⟩

/-- The capacity target of the C10 crash scenario. -/
def c10Ct : CapacityTarget := ⟨[⟨"rel", "u1"⟩], [⟨"c1", 50⟩], []⟩

end Shipper

/- Batteries marks the `Rat` field operations `@[irreducible]`; concrete
evaluation of the binary64 rounding model by `decide` needs the elaborator
to unfold them (the kernel itself ignores reducibility attributes, so this
changes nothing about what the kernel certifies). -/
set_option allowUnsafeReducibility true

attribute [local semireducible] Rat.mul Rat.add Rat.div Rat.sub Rat.inv Rat.neg

set_option maxRecDepth 40000

namespace Shipper

theorem natLog2_spec : ∀ (fuel n : ℕ), 1 ≤ n → n < 2 ^ fuel →
    2 ^ natLog2 fuel n ≤ n ∧ n < 2 ^ (natLog2 fuel n + 1) := by
  intro fuel
  induction fuel with
  | zero => intro n h1 h2; simp at h2; omega
  | succ fuel ih =>
    intro n h1 h2
    rw [natLog2]
    by_cases hn : n < 2
    · simp only [hn, if_true]
      constructor
      · simpa using h1
      · simpa using hn
    · simp only [hn, if_false]
      have hn2 : 2 ≤ n := by omega
      have hq1 : 1 ≤ n / 2 := by
        rw [Nat.le_div_iff_mul_le (by norm_num)]; omega
      have hq2 : n / 2 < 2 ^ fuel := by
        rw [Nat.div_lt_iff_lt_mul (by norm_num)]
        calc n < 2 ^ (fuel + 1) := h2
          _ = 2 ^ fuel * 2 := by rw [pow_succ]
      obtain ⟨hlo, hhi⟩ := ih (n / 2) hq1 hq2
      have hdm := Nat.div_add_mod n 2
      have hm : n % 2 < 2 := Nat.mod_lt _ (by norm_num)
      constructor
      · calc 2 ^ (natLog2 fuel (n / 2) + 1) = 2 ^ natLog2 fuel (n / 2) * 2 := by
              rw [pow_succ]
          _ ≤ n / 2 * 2 := by exact Nat.mul_le_mul_right 2 hlo
          _ ≤ n := by omega
      · have : n / 2 + 1 ≤ 2 ^ (natLog2 fuel (n / 2) + 1) := hhi
        calc n = 2 * (n / 2) + n % 2 := by omega
          _ < 2 * (n / 2 + 1) := by omega
          _ ≤ 2 * 2 ^ (natLog2 fuel (n / 2) + 1) := by
              exact Nat.mul_le_mul_left 2 this
          _ = 2 ^ (natLog2 fuel (n / 2) + 1 + 1) := by
              rw [pow_succ]; ring

theorem natClog2_one : ∀ fuel : ℕ, natClog2 fuel 1 = 0 := by
  intro fuel
  cases fuel with
  | zero => rfl
  | succ fuel => rw [natClog2]; simp

theorem natClog2_spec : ∀ (fuel c : ℕ), 2 ≤ c → c ≤ 2 ^ fuel →
    1 ≤ natClog2 fuel c ∧ 2 ^ (natClog2 fuel c - 1) < c ∧
      c ≤ 2 ^ natClog2 fuel c := by
  intro fuel
  induction fuel with
  | zero => intro c h1 h2; simp at h2; omega
  | succ fuel ih =>
    intro c h1 h2
    rw [natClog2]
    have hc1 : ¬ c ≤ 1 := by omega
    simp only [hc1, if_false]
    have hdm := Nat.div_add_mod (c + 1) 2
    have hm : (c + 1) % 2 < 2 := Nat.mod_lt _ (by norm_num)
    by_cases hsmall : (c + 1) / 2 ≤ 1
    · have hc2 : c = 2 := by omega
      subst hc2
      rw [show (2 + 1) / 2 = 1 from rfl, natClog2_one]
      refine ⟨by omega, by norm_num, by norm_num⟩
    · have hg1 : 2 ≤ (c + 1) / 2 := by omega
      have hg2 : (c + 1) / 2 ≤ 2 ^ fuel := by
        have h2f : 2 * 2 ^ fuel = 2 ^ (fuel + 1) := by rw [pow_succ]; ring
        rw [Nat.div_le_iff_le_mul_add_pred (by norm_num)]
        omega
      obtain ⟨ih1, ih2, ih3⟩ := ih ((c + 1) / 2) hg1 hg2
      set g : ℕ := natClog2 fuel ((c + 1) / 2) with hg
      refine ⟨by omega, ?_, ?_⟩
      · have hpred : 2 ^ (g - 1) + 1 ≤ (c + 1) / 2 := ih2
        have h2g : 2 ^ (g - 1) * 2 = 2 ^ g := by
          calc 2 ^ (g - 1) * 2 = 2 ^ (g - 1 + 1) := by rw [pow_succ]
            _ = 2 ^ g := by congr 1; omega
        have : (2 ^ (g - 1) + 1) * 2 ≤ (c + 1) / 2 * 2 := by
          exact Nat.mul_le_mul_right 2 hpred
        simp only [Nat.add_sub_cancel]
        omega
      · have : (c + 1) / 2 * 2 ≤ 2 ^ g * 2 := Nat.mul_le_mul_right 2 ih3
        have h2g : 2 ^ g * 2 = 2 ^ (g + 1) := by rw [pow_succ]
        calc c ≤ (c + 1) / 2 * 2 := by omega
          _ ≤ 2 ^ (g + 1) := by omega

/-- `floorLog2` locates the binade: `2 ^ floorLog2 q ≤ q < 2 ^ (floorLog2 q + 1)`
for positive `q` in the (generous) range the controller's arithmetic can
produce. -/
theorem floorLog2_spec (q : ℚ) (h0 : 0 < q) (hlo : 1 / 2 ^ 62 < q)
    (hhi : q < 2 ^ 62) :
    (2 : ℚ) ^ floorLog2 q ≤ q ∧ q < (2 : ℚ) ^ (floorLog2 q + 1) := by
  rw [floorLog2]
  by_cases h1 : 1 ≤ q
  · simp only [h1, if_true]
    have hnq : (⌊q⌋₊ : ℚ) ≤ q := Nat.floor_le (le_of_lt h0)
    have hqn : q < ⌊q⌋₊ + 1 := Nat.lt_floor_add_one q
    have hn1 : 1 ≤ ⌊q⌋₊ := Nat.le_floor (by exact_mod_cast h1)
    have hn64 : ⌊q⌋₊ < 2 ^ 64 := by
      have h62 : (⌊q⌋₊ : ℚ) < ((2 ^ 62 : ℕ) : ℚ) := by
        push_cast
        exact lt_of_le_of_lt hnq hhi
      have h62' : ⌊q⌋₊ < 2 ^ 62 := by exact_mod_cast h62
      have : (2 : ℕ) ^ 62 < 2 ^ 64 := by norm_num
      omega
    obtain ⟨hLo, hHi⟩ := natLog2_spec 64 ⌊q⌋₊ hn1 hn64
    constructor
    · rw [zpow_natCast]
      calc ((2 : ℚ) ^ natLog2 64 ⌊q⌋₊) = ((2 ^ natLog2 64 ⌊q⌋₊ : ℕ) : ℚ) := by
            push_cast; ring
        _ ≤ (⌊q⌋₊ : ℚ) := by exact_mod_cast hLo
        _ ≤ q := hnq
    · have hstep : ((natLog2 64 ⌊q⌋₊ : ℤ) + 1) = ((natLog2 64 ⌊q⌋₊ + 1 : ℕ) : ℤ) := by
        push_cast; ring
      rw [hstep, zpow_natCast]
      have hn1' : (⌊q⌋₊ : ℚ) + 1 ≤ ((2 ^ (natLog2 64 ⌊q⌋₊ + 1) : ℕ) : ℚ) := by
        exact_mod_cast hHi
      calc q < (⌊q⌋₊ : ℚ) + 1 := hqn
        _ ≤ ((2 ^ (natLog2 64 ⌊q⌋₊ + 1) : ℕ) : ℚ) := hn1'
        _ = (2 : ℚ) ^ (natLog2 64 ⌊q⌋₊ + 1) := by push_cast; ring
  · simp only [h1, if_false]
    have hq1 : q < 1 := lt_of_not_le h1
    have hq0 : q ≠ 0 := ne_of_gt h0
    have hinv0 : 0 < q⁻¹ := inv_pos.mpr h0
    have hinv1 : 1 < q⁻¹ := by
      rw [lt_inv_comm₀ (by norm_num) h0]
      simpa using hq1
    have hinvhi : q⁻¹ < 2 ^ 62 := by
      have h2 : (0 : ℚ) < 1 / 2 ^ 62 := by norm_num
      calc q⁻¹ < (1 / 2 ^ 62)⁻¹ := by
            exact inv_lt_inv_of_lt h2 hlo
        _ = 2 ^ 62 := by norm_num
    have hc2 : 2 ≤ ⌈q⁻¹⌉₊ := by
      have : (1 : ℕ) < ⌈q⁻¹⌉₊ := Nat.lt_ceil.mpr (by exact_mod_cast hinv1)
      omega
    have hc64 : ⌈q⁻¹⌉₊ ≤ 2 ^ 64 := by
      apply Nat.ceil_le.mpr
      have : ((2 ^ 64 : ℕ) : ℚ) = 2 ^ 64 := by push_cast; ring
      rw [this]
      have : (2 : ℚ) ^ 62 ≤ 2 ^ 64 := by norm_num
      linarith
    obtain ⟨hg1, hg2, hg3⟩ := natClog2_spec 64 ⌈q⁻¹⌉₊ hc2 hc64
    have hle : q⁻¹ ≤ ((2 ^ natClog2 64 ⌈q⁻¹⌉₊ : ℕ) : ℚ) := by
      calc q⁻¹ ≤ (⌈q⁻¹⌉₊ : ℚ) := Nat.le_ceil _
        _ ≤ ((2 ^ natClog2 64 ⌈q⁻¹⌉₊ : ℕ) : ℚ) := by exact_mod_cast hg3
    have hlt : ((2 ^ (natClog2 64 ⌈q⁻¹⌉₊ - 1) : ℕ) : ℚ) < q⁻¹ := by
      have hceil : (⌈q⁻¹⌉₊ : ℚ) < q⁻¹ + 1 :=
        Nat.ceil_lt_add_one (le_of_lt hinv0)
      have hstep : ((2 ^ (natClog2 64 ⌈q⁻¹⌉₊ - 1) + 1 : ℕ) : ℚ) ≤ (⌈q⁻¹⌉₊ : ℚ) := by
        exact_mod_cast hg2
      push_cast at hstep ⊢
      linarith
    constructor
    · rw [zpow_neg, zpow_natCast]
      have hpow0 : (0 : ℚ) < ((2 ^ natClog2 64 ⌈q⁻¹⌉₊ : ℕ) : ℚ) := by positivity
      have := inv_le_inv_of_le hinv0 hle
      rw [inv_inv] at this
      calc ((2 : ℚ) ^ natClog2 64 ⌈q⁻¹⌉₊)⁻¹
          = (((2 ^ natClog2 64 ⌈q⁻¹⌉₊ : ℕ) : ℚ))⁻¹ := by push_cast; ring_nf
        _ ≤ q := this
    · have hexp : (-(natClog2 64 ⌈q⁻¹⌉₊ : ℤ) + 1) =
          -(((natClog2 64 ⌈q⁻¹⌉₊ - 1 : ℕ)) : ℤ) := by
        have : ((natClog2 64 ⌈q⁻¹⌉₊ - 1 : ℕ) : ℤ) = (natClog2 64 ⌈q⁻¹⌉₊ : ℤ) - 1 := by
          have := hg1
          push_cast [Nat.cast_sub this]
          ring
        rw [this]; ring
      rw [hexp, zpow_neg, zpow_natCast]
      have hpow0 : (0 : ℚ) < ((2 ^ (natClog2 64 ⌈q⁻¹⌉₊ - 1) : ℕ) : ℚ) := by positivity
      have := inv_lt_inv_of_lt hpow0 hlt
      rw [inv_inv] at this
      calc q = (q⁻¹)⁻¹ := by rw [inv_inv]
        _ < (((2 ^ (natClog2 64 ⌈q⁻¹⌉₊ - 1) : ℕ) : ℚ))⁻¹ := by
            exact inv_lt_inv_of_lt hpow0 hlt
        _ = ((2 : ℚ) ^ ((natClog2 64 ⌈q⁻¹⌉₊ - 1 : ℕ)))⁻¹ := by push_cast; ring_nf

/-- Rounding a mantissa to the nearest integer moves it by at most 1/2. -/
theorem mantissaRound_bounds (m : ℚ) :
    m - 1/2 ≤ (mantissaRound m : ℚ) ∧ (mantissaRound m : ℚ) ≤ m + 1/2 := by
  have hfl : (⌊m⌋ : ℚ) ≤ m := Int.floor_le m
  have hfu : m < ⌊m⌋ + 1 := Int.lt_floor_add_one m
  rw [mantissaRound]
  split_ifs with h₁ h₂ h₃ <;> constructor <;> push_cast <;> linarith

/-- Rounding at the binade exponent `e` of `q` moves `q` by at most half an
ulp, `2 ^ (e - 53)`. -/
theorem roundAt_bounds (q : ℚ) (e : ℤ) :
    q - (2 : ℚ) ^ (e - 53) ≤ roundAt q e ∧
      roundAt q e ≤ q + (2 : ℚ) ^ (e - 53) := by
  have hs : (0 : ℚ) < 2 ^ ((52 : ℤ) - e) := zpow_pos (by norm_num) _
  obtain ⟨hlo, hhi⟩ := mantissaRound_bounds (q * 2 ^ ((52 : ℤ) - e))
  have key : (2 : ℚ) ^ (e - 53) * 2 ^ ((52 : ℤ) - e) = 1/2 := by
    rw [← zpow_add₀ (two_ne_zero), show e - 53 + (52 - e) = (-1 : ℤ) by ring]
    norm_num
  rw [roundAt]
  constructor
  · rw [le_div_iff₀ hs]
    calc (q - 2 ^ (e - 53)) * 2 ^ ((52 : ℤ) - e)
        = q * 2 ^ ((52 : ℤ) - e) - 2 ^ (e - 53) * 2 ^ ((52 : ℤ) - e) := by ring
      _ = q * 2 ^ ((52 : ℤ) - e) - 1/2 := by rw [key]
      _ ≤ (mantissaRound (q * 2 ^ ((52 : ℤ) - e)) : ℚ) := hlo
  · rw [div_le_iff₀ hs]
    calc (mantissaRound (q * 2 ^ ((52 : ℤ) - e)) : ℚ)
        ≤ q * 2 ^ ((52 : ℤ) - e) + 1/2 := hhi
      _ = q * 2 ^ ((52 : ℤ) - e) + 2 ^ (e - 53) * 2 ^ ((52 : ℤ) - e) := by
          rw [key]
      _ = (q + 2 ^ (e - 53)) * 2 ^ ((52 : ℤ) - e) := by ring

/-- Half-ulp relative error of the positive-range binary64 rounding: for `q`
in the controller's numeric range, `roundPosDouble q` is within `q / 2 ^ 53`
of `q`. -/
theorem roundPosDouble_bounds (q : ℚ) (h0 : 0 < q) (hlo : 1 / 2 ^ 62 < q)
    (hhi : q < 2 ^ 62) :
    q - q / 2 ^ 53 ≤ roundPosDouble q ∧ roundPosDouble q ≤ q + q / 2 ^ 53 := by
  obtain ⟨hbin, _⟩ := floorLog2_spec q h0 hlo hhi
  obtain ⟨h₁, h₂⟩ := roundAt_bounds q (floorLog2 q)
  have hulp : (2 : ℚ) ^ (floorLog2 q - 53) ≤ q / 2 ^ 53 := by
    have h53 : (0 : ℚ) < 2 ^ (53 : ℕ) := by positivity
    calc (2 : ℚ) ^ (floorLog2 q - 53)
        = 2 ^ floorLog2 q / 2 ^ (53 : ℤ) := by
          rw [zpow_sub₀ (two_ne_zero)]
      _ = 2 ^ floorLog2 q / 2 ^ (53 : ℕ) := by norm_num
      _ ≤ q / 2 ^ (53 : ℕ) := (div_le_div_right h53).mpr hbin
  rw [roundPosDouble]
  constructor <;> linarith

theorem roundDouble_zero : roundDouble 0 = 0 := by
  rw [roundDouble]; norm_num

theorem roundDouble_pos_eq (q : ℚ) (h : 0 < q) :
    roundDouble q = roundPosDouble q := by
  rw [roundDouble, if_pos h]

theorem mantissaRound_nonneg (m : ℚ) (h : 0 ≤ m) : 0 ≤ mantissaRound m := by
  have h0 : (0 : ℤ) ≤ ⌊m⌋ := Int.floor_nonneg.mpr h
  rw [mantissaRound]
  split_ifs <;> omega

theorem roundPosDouble_nonneg (q : ℚ) (h : 0 ≤ q) : 0 ≤ roundPosDouble q := by
  rw [roundPosDouble, roundAt]
  apply div_nonneg _ (le_of_lt (zpow_pos (by norm_num) _))
  have : 0 ≤ q * 2 ^ ((52 : ℤ) - floorLog2 q) :=
    mul_nonneg h (le_of_lt (zpow_pos (by norm_num) _))
  exact_mod_cast mantissaRound_nonneg _ this

theorem roundDouble_nonneg (q : ℚ) (h : 0 ≤ q) : 0 ≤ roundDouble q := by
  rw [roundDouble]
  split_ifs with h₁ h₂
  · exact roundPosDouble_nonneg q h
  · linarith
  · exact le_refl 0

theorem roundDouble_nonpos (q : ℚ) (h : q ≤ 0) : roundDouble q ≤ 0 := by
  rw [roundDouble]
  split_ifs with h₁ h₂
  · linarith
  · have : 0 ≤ roundPosDouble (-q) := roundPosDouble_nonneg _ (by linarith)
    linarith
  · exact le_refl 0

/-- The float computation of `calculateReplicaCountFromPercentage` stays
within one of the exact ceiling: for every total in the `int32` range and
percent in `[0,100]`, `⌈p·t/100⌉ ≤ result ≤ ⌈p·t/100⌉ + 1`. -/
theorem calculateReplicaCount_bounds (t p : ℤ) (ht0 : 0 ≤ t) (ht : t < 2 ^ 31)
    (hp0 : 0 ≤ p) (hp : p ≤ 100) :
    ⌈((p * t : ℤ) : ℚ) / 100⌉ ≤ calculateReplicaCountFromPercentage t p ∧
      calculateReplicaCountFromPercentage t p ≤ ⌈((p * t : ℤ) : ℚ) / 100⌉ + 1 := by
  rcases hp0.lt_or_eq with hp1 | hp1
  case inr =>
    subst hp1
    rw [calculateReplicaCountFromPercentage]
    have h2 : (((0 : ℤ) * t : ℤ) : ℚ) / 100 = 0 := by push_cast; ring
    have h1 : ((0 : ℤ) : ℚ) / 100 = 0 := by norm_num
    rw [h2, h1, roundDouble_zero, zero_mul, roundDouble_zero]
    norm_num
  rcases ht0.lt_or_eq with ht1 | ht1
  case inr =>
    subst ht1
    rw [calculateReplicaCountFromPercentage]
    have h2 : ((p * (0 : ℤ) : ℤ) : ℚ) / 100 = 0 := by push_cast; ring
    rw [h2, show ((0 : ℤ) : ℚ) = 0 by norm_num, mul_zero, roundDouble_zero]
    norm_num
  -- main case: 1 ≤ p ≤ 100, 1 ≤ t < 2^31
  have hpQ : (1 : ℚ) ≤ (p : ℚ) := by exact_mod_cast hp1
  have hpQ' : (p : ℚ) ≤ 100 := by exact_mod_cast hp
  have htQ : (1 : ℚ) ≤ (t : ℚ) := by exact_mod_cast ht1
  have htQ' : (t : ℚ) ≤ 2 ^ 31 := by
    have : t ≤ 2 ^ 31 := le_of_lt ht
    exact_mod_cast this
  set Q1 : ℚ := (p : ℚ) / 100 with hQ1
  have hq1_0 : 0 < Q1 := by positivity
  have hq1_lo : 1 / 2 ^ 62 < Q1 := by
    rw [hQ1]
    rw [div_lt_div_iff (by norm_num) (by norm_num)]
    nlinarith
  have hq1_hi : Q1 ≤ 1 := by
    rw [hQ1, div_le_one (by norm_num)]; exact hpQ'
  obtain ⟨hfp_lo, hfp_hi⟩ :=
    roundPosDouble_bounds Q1 hq1_0 hq1_lo (by nlinarith)
  set fp : ℚ := roundPosDouble Q1 with hfp
  have hq153 : Q1 / 2 ^ 53 < Q1 := div_lt_self hq1_0 (by norm_num)
  have hq153' : Q1 / 2 ^ 53 ≤ Q1 / 2 := by
    apply div_le_div_of_nonneg_left (le_of_lt hq1_0) (by norm_num) (by norm_num)
  have hfp0 : 0 < fp := by linarith
  set Y : ℚ := fp * (t : ℚ) with hY
  set X : ℚ := Q1 * (t : ℚ) with hX
  have htQ0 : (0 : ℚ) ≤ (t : ℚ) := by linarith
  have hY0 : 0 < Y := mul_pos hfp0 (by linarith)
  have f1 : Y ≤ X + X / 2 ^ 53 := by
    have := mul_le_mul_of_nonneg_right hfp_hi htQ0
    calc Y ≤ (Q1 + Q1 / 2 ^ 53) * (t : ℚ) := this
      _ = X + X / 2 ^ 53 := by rw [hX]; ring
  have f2 : X - X / 2 ^ 53 ≤ Y := by
    have := mul_le_mul_of_nonneg_right hfp_lo htQ0
    calc X - X / 2 ^ 53 = (Q1 - Q1 / 2 ^ 53) * (t : ℚ) := by rw [hX]; ring
      _ ≤ Y := this
  have hX0 : 0 < X := mul_pos hq1_0 (by linarith)
  have hXhi : X ≤ 2 ^ 31 := by
    calc X ≤ 1 * (t : ℚ) := mul_le_mul_of_nonneg_right hq1_hi htQ0
      _ = (t : ℚ) := one_mul _
      _ ≤ 2 ^ 31 := htQ'
  have hX53 : X / 2 ^ 53 ≤ (2 : ℚ) ^ 31 / 2 ^ 53 :=
    (div_le_div_right (by norm_num)).mpr hXhi
  have hY53 : Y / 2 ^ 53 ≤ (2 : ℚ) ^ 32 / 2 ^ 53 := by
    apply (div_le_div_right (by norm_num)).mpr
    have : X / 2 ^ 53 ≤ X := le_of_lt (div_lt_self hX0 (by norm_num))
    calc Y ≤ X + X / 2 ^ 53 := f1
      _ ≤ 2 ^ 31 + 2 ^ 31 := by linarith
      _ = 2 ^ 32 := by norm_num
  have hY_lo : 1 / 2 ^ 62 < Y := by
    have hhalf : 1 / 200 ≤ Q1 / 2 := by
      rw [hQ1]
      rw [div_le_div_iff (by norm_num) (by norm_num)]
      nlinarith
    have : (1 : ℚ) / 200 * 1 ≤ (Q1 - Q1 / 2 ^ 53) * (t : ℚ) := by
      apply mul_le_mul (by linarith) htQ (by norm_num) (by linarith)
    have h2 := mul_le_mul_of_nonneg_right hfp_lo htQ0
    calc (1 : ℚ) / 2 ^ 62 < 1 / 200 := by norm_num
      _ = 1 / 200 * 1 := by ring
      _ ≤ (Q1 - Q1 / 2 ^ 53) * (t : ℚ) := this
      _ ≤ fp * (t : ℚ) := h2
  have hY_hi : Y < 2 ^ 62 := by
    have : X / 2 ^ 53 ≤ X := le_of_lt (div_lt_self hX0 (by norm_num))
    calc Y ≤ X + X / 2 ^ 53 := f1
      _ ≤ 2 ^ 31 + 2 ^ 31 := by linarith
      _ < 2 ^ 62 := by norm_num
  obtain ⟨f4, f3⟩ := roundPosDouble_bounds Y hY0 hY_lo hY_hi
  set res : ℚ := roundPosDouble Y with hres
  have hcomp : calculateReplicaCountFromPercentage t p = ⌈res⌉ := by
    rw [calculateReplicaCountFromPercentage, roundDouble_pos_eq _ hq1_0,
      roundDouble_pos_eq _ hY0]
  have hXcast : ((p * t : ℤ) : ℚ) / 100 = X := by
    rw [hX, hQ1]; push_cast; ring
  rw [hcomp, hXcast]
  have hrup : res ≤ X + 1 / 200 := by
    have c1 : (2 : ℚ) ^ 31 / 2 ^ 53 + 2 ^ 32 / 2 ^ 53 ≤ 1 / 200 := by norm_num
    linarith
  have hrdown : X - 1 / 200 ≤ res := by
    have c1 : (2 : ℚ) ^ 31 / 2 ^ 53 + 2 ^ 32 / 2 ^ 53 ≤ 1 / 200 := by norm_num
    linarith
  constructor
  · -- ⌈X⌉ ≤ ⌈res⌉
    have h99 : (⌈X⌉ : ℚ) - X ≤ 99 / 100 := by
      set K : ℤ := 100 * ⌈X⌉ - p * t with hK
      have hKQ : (K : ℚ) = 100 * ((⌈X⌉ : ℚ) - X) := by
        rw [hK]
        push_cast
        rw [hX, hQ1]
        ring
      have hceil1 : (⌈X⌉ : ℚ) - X < 1 := by
        have := Int.ceil_lt_add_one X
        linarith
      have hK100 : (K : ℚ) < 100 := by rw [hKQ]; linarith
      have : K < 100 := by exact_mod_cast hK100
      have : K ≤ 99 := by omega
      have : (K : ℚ) ≤ 99 := by exact_mod_cast this
      rw [hKQ] at this
      linarith
    have hlt : ((⌈X⌉ - 1 : ℤ) : ℚ) < (⌈res⌉ : ℚ) := by
      have h1 : res ≤ (⌈res⌉ : ℚ) := Int.le_ceil res
      push_cast
      linarith
    have : ⌈X⌉ - 1 < ⌈res⌉ := by exact_mod_cast hlt
    omega
  · -- ⌈res⌉ ≤ ⌈X⌉ + 1
    apply Int.ceil_le.mpr
    have h1 : X ≤ (⌈X⌉ : ℚ) := Int.le_ceil X
    push_cast
    linarith

/-! ### Structural lemmas about the per-cluster loop -/

theorem setCond_name (e : ClusterCapacityStatus) (c : ClusterCapacityCondition) :
    (setClusterCapacityCondition e c).name = e.name := rfl

theorem setCond_sadPods (e : ClusterCapacityStatus)
    (c : ClusterCapacityCondition) :
    (setClusterCapacityCondition e c).sadPods = e.sadPods := rfl

theorem findTarget_fst_name (env : Env) (cs : ClusterCapacityTarget)
    (e : ClusterCapacityStatus) :
    ((findTargetDeploymentForClusterSpec env cs e).1).name = e.name := by
  rw [findTargetDeploymentForClusterSpec]
  cases env.deployments cs.name with
  | storeErr m => rfl
  | listErr m => rfl
  | ok ds =>
    cases ds with
    | nil => rfl
    | cons d rest =>
      cases rest with
      | nil => rfl
      | cons d2 r2 => rfl

theorem patch_fst_name (env : Env) (d : Deployment) (cn : String) (rc : ℤ)
    (e : ClusterCapacityStatus) :
    ((patchDeploymentWithReplicaCount env d cn rc e).1).name = e.name := by
  rw [patchDeploymentWithReplicaCount]
  cases env.patch cn with
  | clientErr m => rfl
  | patchErr m => rfl
  | ok => rfl

theorem getSadPods_fst_name (env : Env) (d : Deployment)
    (e : ClusterCapacityStatus) :
    ((getSadPods env d e).1).name = e.name := by
  rw [getSadPods]
  cases env.pods e.name with
  | err m => rfl
  | ok pc sc sp =>
    cases d.replicas with
    | none => rfl
    | some r =>
      dsimp only
      split
      · rfl
      · split
        · rfl
        · rfl

theorem reconcileObserve_entry_name (env : Env) (total : ℤ) (d : Deployment)
    (e : ClusterCapacityStatus) (pcs : List PatchCall) :
    (reconcileObserve env total d e pcs).entry.name = e.name := by
  rw [reconcileObserve]
  have hg := getSadPods_fst_name env d
    { e with availableReplicas := d.availableReplicas,
             achievedPercent :=
               calculatePercentageFromAmount total d.availableReplicas }
  rcases hgs : getSadPods env d
      { e with availableReplicas := d.availableReplicas,
               achievedPercent :=
                 calculatePercentageFromAmount total d.availableReplicas }
    with ⟨e₂, out⟩
  rw [hgs] at hg
  cases out with
  | panicked => exact hg
  | failed => exact hg
  | ok sp =>
    dsimp only
    split
    · exact hg
    · simpa [ReconOut.entry, setCond_name] using hg

theorem reconcileClusterSpec_entry_name (env : Env) (total : ℤ)
    (cs : ClusterCapacityTarget) (e : ClusterCapacityStatus) :
    (reconcileClusterSpec env total cs e).entry.name = e.name := by
  rw [reconcileClusterSpec]
  have hf := findTarget_fst_name env cs e
  rcases hft : findTargetDeploymentForClusterSpec env cs e with ⟨e', od⟩
  rw [hft] at hf
  cases od with
  | none => exact hf
  | some d =>
    dsimp only
    split
    · rw [reconcileObserve_entry_name]; exact hf
    · have hp := patch_fst_name env d cs.name
        (calculateReplicaCountFromPercentage total cs.percent) e'
      rcases hpt : patchDeploymentWithReplicaCount env d cs.name
          (calculateReplicaCountFromPercentage total cs.percent) e'
        with ⟨e₂, ok, pcs⟩
      rw [hpt] at hp
      cases ok with
      | false => dsimp only [ReconOut.entry]; rw [hp]; exact hf
      | true =>
        dsimp only
        rw [reconcileObserve_entry_name, hp]; exact hf

theorem lastIndexOf_none_iff (n : String) :
    ∀ l : List ClusterCapacityStatus,
      lastIndexOf n l = none ↔ ∀ e ∈ l, e.name ≠ n := by
  intro l
  induction l with
  | nil => simp [lastIndexOf]
  | cons e rest ih =>
    rw [lastIndexOf]
    cases hr : lastIndexOf n rest with
    | some i =>
      simp only [reduceCtorEq, false_iff, not_forall]
      have : ¬ (∀ e ∈ rest, e.name ≠ n) := by
        rw [← ih]; simp [hr]
      push_neg at this
      obtain ⟨x, hx, hxn⟩ := this
      exact ⟨x, by simp [hx], by simpa using hxn⟩
    | none =>
      by_cases he : e.name = n
      · simp only [he, if_pos rfl]
        constructor
        · intro hsome; cases hsome
        · intro hall
          exact absurd he (hall e (by simp))
      · simp only [if_neg he]
        simp only [true_iff]
        intro x hx
        rcases List.mem_cons.mp hx with h | h
        · subst h; exact he
        · exact (ih.mp hr) x h

theorem lastIndexOf_get (n : String) :
    ∀ (l : List ClusterCapacityStatus) (i : ℕ),
      lastIndexOf n l = some i →
        ∃ e, l.get? i = some e ∧ e.name = n := by
  intro l
  induction l with
  | nil => intro i h; simp [lastIndexOf] at h
  | cons e rest ih =>
    intro i h
    rw [lastIndexOf] at h
    cases hr : lastIndexOf n rest with
    | some j =>
      rw [hr] at h
      obtain ⟨e', hget, hname⟩ := ih j hr
      cases h
      exact ⟨e', by simpa using hget, hname⟩
    | none =>
      rw [hr] at h
      by_cases he : e.name = n
      · rw [if_pos he] at h
        cases h
        exact ⟨e, rfl, he⟩
      · rw [if_neg he] at h
        cases h

/-- A step's status list is the old one, the old one with the resolved entry
replaced at its index (by an entry of the same cluster name), or the old one
with the zero entry appended. -/
theorem syncStep_status_cases (env : Env) (total : ℤ) (s : LoopState)
    (cs : ClusterCapacityTarget) :
    (syncStep env total s cs).status = s.status ∨
    (∃ i e', lastIndexOf cs.name s.status = some i ∧ e'.name = cs.name ∧
      (syncStep env total s cs).status = s.status.set i e') ∨
    (syncStep env total s cs).status = s.status ++ [zeroClusterStatus cs.name] := by
  rw [syncStep]
  cases hL : lastIndexOf cs.name s.status with
  | none =>
    rcases hr : reconcileClusterSpec env total cs (zeroClusterStatus cs.name)
      with ⟨e', pcs, evs⟩ | ⟨e', pcs, evs⟩
    · right; right; simp only [hr]
    · right; right; simp only [hr]
  | some i =>
    rcases hr : reconcileClusterSpec env total cs
        (s.status.getD i (zeroClusterStatus cs.name))
      with ⟨e', pcs, evs⟩ | ⟨e', pcs, evs⟩
    · left; simp only [hr]
    · right; left
      refine ⟨i, e', rfl, ?_, by simp only [hr]⟩
      have hn := reconcileClusterSpec_entry_name env total cs
        (s.status.getD i (zeroClusterStatus cs.name))
      rw [hr] at hn
      obtain ⟨e₀, hget, hname⟩ := lastIndexOf_get cs.name s.status i hL
      have : s.status.getD i (zeroClusterStatus cs.name) = e₀ := by
        rw [List.getD_eq_getElem?_getD, ← List.get?_eq_getElem?, hget]
        rfl
      rw [this] at hn
      exact hn.trans hname

/-- A step leaves every previously present cluster name present. -/
theorem syncStep_mem (env : Env) (total : ℤ) (s : LoopState)
    (cs : ClusterCapacityTarget) (n : String)
    (h : ∃ e ∈ s.status, e.name = n) :
    ∃ e ∈ (syncStep env total s cs).status, e.name = n := by
  rcases syncStep_status_cases env total s cs with hc | ⟨i, e', hL, hname, hc⟩ | hc
  · rw [hc]; exact h
  · rw [hc]
    obtain ⟨e, he, hen⟩ := h
    obtain ⟨e₀, hget, he₀⟩ := lastIndexOf_get cs.name s.status i hL
    have hilt : i < s.status.length := by
      by_contra hge
      rw [List.get?_eq_none.mpr (le_of_not_lt hge)] at hget
      cases hget
    by_cases hn' : n = cs.name
    · exact ⟨e', List.get?_mem (List.get?_set_eq_of_lt e' hilt),
        hname.trans hn'.symm⟩
    · obtain ⟨j, hj⟩ := List.get?_of_mem he
      have hij : i ≠ j := by
        intro hij
        rw [← hij, hget] at hj
        cases hj
        exact hn' (hen ▸ (he₀ ▸ rfl))
      have : (s.status.set i e').get? j = some e := by
        rw [List.get?_set_ne e' s.status hij]
        exact hj
      exact ⟨e, List.get?_mem this, hen⟩
  · rw [hc]
    obtain ⟨e, he, hen⟩ := h
    exact ⟨e, List.mem_append_left _ he, hen⟩

/-- After a step for cluster `cs`, an entry named `cs.name` is present
(unless the step panicked with no prior entry — presence still holds because
the zero entry is appended before the reconciliation runs). -/
theorem syncStep_name_mem (env : Env) (total : ℤ) (s : LoopState)
    (cs : ClusterCapacityTarget) :
    ∃ e ∈ (syncStep env total s cs).status, e.name = cs.name := by
  rcases hL : lastIndexOf cs.name s.status with _ | i
  · rcases syncStep_status_cases env total s cs with hc | ⟨i, e', hL', _, _⟩ | hc
    · exfalso
      rw [syncStep, hL] at hc
      rcases hr : reconcileClusterSpec env total cs (zeroClusterStatus cs.name)
        with ⟨e', pcs, evs⟩ | ⟨e', pcs, evs⟩ <;> rw [hr] at hc <;>
        · dsimp at hc
          have := congrArg List.length hc
          simp at this
    · rw [hL] at hL'; cases hL'
    · rw [hc]
      exact ⟨zeroClusterStatus cs.name, List.mem_append_right _ (by simp),
        rfl⟩
  · have h : ∃ e ∈ s.status, e.name = cs.name := by
      obtain ⟨e₀, hget, hname⟩ := lastIndexOf_get cs.name s.status i hL
      exact ⟨e₀, List.get?_mem hget, hname⟩
    exact syncStep_mem env total s cs cs.name h

/-- A step for a differently named cluster keeps entries named `n` absent. -/
theorem syncStep_absent (env : Env) (total : ℤ) (s : LoopState)
    (cs : ClusterCapacityTarget) (n : String) (hne : cs.name ≠ n)
    (h : ∀ e ∈ s.status, e.name ≠ n) :
    ∀ e ∈ (syncStep env total s cs).status, e.name ≠ n := by
  rcases syncStep_status_cases env total s cs with hc | ⟨i, e', _, hname, hc⟩ | hc
  · rw [hc]; exact h
  · rw [hc]
    intro e he
    rcases List.mem_or_eq_of_mem_set he with h' | h'
    · exact h e h'
    · rw [h', hname]; exact hne
  · rw [hc]
    intro e he
    rcases List.mem_append.mp he with h' | h'
    · exact h e h'
    · simp only [List.mem_singleton] at h'
      rw [h']; exact hne

/-- A step for a differently named cluster preserves "every entry named `n`
is the zero entry". -/
theorem syncStep_zeroOnly (env : Env) (total : ℤ) (s : LoopState)
    (cs : ClusterCapacityTarget) (n : String) (hne : cs.name ≠ n)
    (h : ∀ e ∈ s.status, e.name = n → e = zeroClusterStatus n) :
    ∀ e ∈ (syncStep env total s cs).status, e.name = n →
      e = zeroClusterStatus n := by
  rcases syncStep_status_cases env total s cs with hc | ⟨i, e', _, hname, hc⟩ | hc
  · rw [hc]; exact h
  · rw [hc]
    intro e he hen
    rcases List.mem_or_eq_of_mem_set he with h' | h'
    · exact h e h' hen
    · exact absurd (h' ▸ hen : e'.name = n) (hname ▸ hne)
  · rw [hc]
    intro e he hen
    rcases List.mem_append.mp he with h' | h'
    · exact h e h' hen
    · simp only [List.mem_singleton] at h'
      subst h'
      exact absurd hen hne

/-- When no entry named for `cs` exists, a step for `cs` appends exactly the
zero entry (the reconciler's mutations go to the discarded local struct). -/
theorem syncStep_appends_zero (env : Env) (total : ℤ) (s : LoopState)
    (cs : ClusterCapacityTarget) (h : ∀ e ∈ s.status, e.name ≠ cs.name) :
    (syncStep env total s cs).status =
      s.status ++ [zeroClusterStatus cs.name] := by
  have hL : lastIndexOf cs.name s.status = none :=
    (lastIndexOf_none_iff cs.name s.status).mpr h
  rw [syncStep, hL]
  rcases hr : reconcileClusterSpec env total cs (zeroClusterStatus cs.name)
    with ⟨e', pcs, evs⟩ | ⟨e', pcs, evs⟩ <;> simp only [hr]

theorem syncLoop_panicked_id (env : Env) (total : ℤ)
    (l : List ClusterCapacityTarget) (s : LoopState)
    (h : s.panicked = true) : syncLoop env total l s = s := by
  cases l with
  | nil => rfl
  | cons c rest => rw [syncLoop, if_pos h]

theorem syncLoop_mem (env : Env) (total : ℤ)
    (specs : List ClusterCapacityTarget) (n : String) :
    ∀ s : LoopState, (∃ e ∈ s.status, e.name = n) →
      ∃ e ∈ (syncLoop env total specs s).status, e.name = n := by
  induction specs with
  | nil => intro s h; exact h
  | cons c rest ih =>
    intro s h
    rw [syncLoop]
    by_cases hp : s.panicked
    · rw [if_pos hp]; exact h
    · rw [if_neg hp]
      exact ih _ (syncStep_mem env total s c n h)

/-- Every spec cluster of a loop run that did not panic has an entry in the
final status. -/
theorem syncLoop_processes (env : Env) (total : ℤ)
    (specs : List ClusterCapacityTarget) (cs : ClusterCapacityTarget)
    (hcs : cs ∈ specs) :
    ∀ s : LoopState, (syncLoop env total specs s).panicked = false →
      ∃ e ∈ (syncLoop env total specs s).status, e.name = cs.name := by
  induction specs with
  | nil => cases hcs
  | cons c rest ih =>
    intro s hnp
    rw [syncLoop] at hnp ⊢
    by_cases hp : s.panicked
    · rw [if_pos hp] at hnp
      rw [hnp] at hp
      cases hp
    · rw [if_neg hp] at hnp ⊢
      rcases List.mem_cons.mp hcs with hceq | hmem
      · subst hceq
        exact syncLoop_mem env total rest cs.name _
          (syncStep_name_mem env total s cs)
      · exact ih hmem _ hnp

theorem syncLoop_absent (env : Env) (total : ℤ)
    (specs : List ClusterCapacityTarget) (n : String)
    (hspec : ∀ c ∈ specs, c.name ≠ n) :
    ∀ s : LoopState, (∀ e ∈ s.status, e.name ≠ n) →
      ∀ e ∈ (syncLoop env total specs s).status, e.name ≠ n := by
  induction specs with
  | nil => intro s h; exact h
  | cons c rest ih =>
    intro s h
    rw [syncLoop]
    by_cases hp : s.panicked
    · rw [if_pos hp]; exact h
    · rw [if_neg hp]
      exact ih (fun c' hc' => hspec c' (List.mem_cons_of_mem _ hc')) _
        (syncStep_absent env total s c n (hspec c (List.mem_cons_self _ _)) h)

theorem syncLoop_zeroOnly (env : Env) (total : ℤ)
    (specs : List ClusterCapacityTarget) (n : String)
    (hspec : ∀ c ∈ specs, c.name ≠ n) :
    ∀ s : LoopState,
      (∀ e ∈ s.status, e.name = n → e = zeroClusterStatus n) →
      ∀ e ∈ (syncLoop env total specs s).status, e.name = n →
        e = zeroClusterStatus n := by
  induction specs with
  | nil => intro s h; exact h
  | cons c rest ih =>
    intro s h
    rw [syncLoop]
    by_cases hp : s.panicked
    · rw [if_pos hp]; exact h
    · rw [if_neg hp]
      exact ih (fun c' hc' => hspec c' (List.mem_cons_of_mem _ hc')) _
        (syncStep_zeroOnly env total s c n (hspec c (List.mem_cons_self _ _)) h)

theorem syncLoop_append (env : Env) (total : ℤ)
    (l₁ l₂ : List ClusterCapacityTarget) :
    ∀ s : LoopState, syncLoop env total (l₁ ++ l₂) s =
      syncLoop env total l₂ (syncLoop env total l₁ s) := by
  induction l₁ with
  | nil => intro s; rfl
  | cons c rest ih =>
    intro s
    rw [List.cons_append, syncLoop, syncLoop]
    by_cases hp : s.panicked
    · rw [if_pos hp, if_pos hp, syncLoop_panicked_id env total l₂ s hp]
    · rw [if_neg hp, if_neg hp, ih]

/-! ### Sorting and the handler -/

theorem leAux_sound : ∀ xs ys : List Char,
    leAux xs ys = true → ¬ List.Lex (· < ·) ys xs := by
  intro xs
  induction xs with
  | nil =>
    intro ys _ hlex
    cases hlex
  | cons x xs ih =>
    intro ys h hlex
    cases ys with
    | nil => simp [leAux] at h
    | cons y ys =>
      rw [leAux] at h
      by_cases hxy : x < y
      · rw [if_pos hxy] at h
        cases hlex with
        | rel hr => exact absurd hxy (lt_asymm hr)
        | cons hl => exact absurd hxy (lt_irrefl _)
      · rw [if_neg hxy] at h
        by_cases hyx : y < x
        · rw [if_pos hyx] at h; cases h
        · rw [if_neg hyx] at h
          have hxy' : x = y := le_antisymm (le_of_not_lt hyx) (le_of_not_lt hxy)
          subst hxy'
          cases hlex with
          | rel hr => exact absurd hr hyx
          | cons hl => exact ih ys h hl

theorem leAux_complete : ∀ xs ys : List Char,
    leAux xs ys = false → List.Lex (· < ·) ys xs := by
  intro xs
  induction xs with
  | nil => intro ys h; simp [leAux] at h
  | cons x xs ih =>
    intro ys h
    cases ys with
    | nil => exact List.Lex.nil
    | cons y ys =>
      rw [leAux] at h
      by_cases hxy : x < y
      · rw [if_pos hxy] at h; cases h
      · rw [if_neg hxy] at h
        by_cases hyx : y < x
        · exact List.Lex.rel hyx
        · rw [if_neg hyx] at h
          have hxy' : x = y := le_antisymm (le_of_not_lt hyx) (le_of_not_lt hxy)
          subst hxy'
          exact List.Lex.cons (ih ys h)

/-- `leAux` on the character data is exactly `≤` on strings. -/
theorem leAux_iff_le (a b : String) : leAux a.data b.data = true ↔ a ≤ b := by
  rw [String.le_iff_toList_le]
  constructor
  · intro h
    have := leAux_sound a.data b.data h
    rw [show (¬ List.Lex (· < ·) b.data a.data) = ¬ (b.toList < a.toList)
      from rfl] at this
    exact not_lt.mp this
  · intro h
    by_contra hfalse
    have hf : leAux a.data b.data = false := by
      cases hval : leAux a.data b.data
      · rfl
      · exact absurd hval hfalse
    have := leAux_complete a.data b.data hf
    have hlt : b.toList < a.toList := this
    exact absurd h (not_le.mpr hlt)

theorem sortByClusterName_sorted_aux (l : List ClusterCapacityStatus) :
    List.Sorted
      (fun a b : ClusterCapacityStatus => leAux a.name.data b.name.data = true)
      (sortByClusterName l) := by
  letI : IsTotal ClusterCapacityStatus
      (fun a b : ClusterCapacityStatus =>
        leAux a.name.data b.name.data = true) :=
    ⟨fun a b => by
      rcases le_total a.name b.name with h | h
      · exact Or.inl ((leAux_iff_le _ _).mpr h)
      · exact Or.inr ((leAux_iff_le _ _).mpr h)⟩
  letI : IsTrans ClusterCapacityStatus
      (fun a b : ClusterCapacityStatus =>
        leAux a.name.data b.name.data = true) :=
    ⟨fun a b c h1 h2 => (leAux_iff_le _ _).mpr
      (le_trans ((leAux_iff_le _ _).mp h1) ((leAux_iff_le _ _).mp h2))⟩
  exact List.sorted_insertionSort _ l

theorem sortByClusterName_sorted (l : List ClusterCapacityStatus) :
    List.Sorted (fun a b : ClusterCapacityStatus => a.name ≤ b.name)
      (sortByClusterName l) :=
  (sortByClusterName_sorted_aux l).imp fun h => (leAux_iff_le _ _).mp h

theorem sortByClusterName_perm (l : List ClusterCapacityStatus) :
    (sortByClusterName l).Perm l :=
  List.perm_insertionSort _ l

/-- Inversion: a sync that passed an object to the update call ran the whole
pipeline — owner validation, release lookup, UID check, annotation parse —
did not panic, and the object is the input with the loop's status, sorted. -/
theorem syncHandler_some_inv (env : Env) (ct : CapacityTarget)
    (u : CapacityTarget)
    (h : (capacityTargetSyncHandler env ct).updateAttempted = some u) :
    ∃ total : ℤ,
      (∃ owner release, ct.ownerReferences = [owner] ∧
        env.releases owner.name = some release ∧ release.uid = owner.uid ∧
        release.totalReplicas = some total) ∧
      (syncedState env total ct).panicked = false ∧
      u = { ct with status :=
        sortByClusterName (syncedState env total ct).status } := by
  rw [capacityTargetSyncHandler] at h
  rcases hre : getReleaseForCapacityTarget env ct with e | release
  · rw [hre] at h; cases h
  · rw [hre] at h
    dsimp only at h
    rcases hta : release.totalReplicas with _ | total
    · rw [hta] at h; cases h
    · rw [hta] at h
      dsimp only at h
      by_cases hp : (syncedState env total ct).panicked
      · rw [if_pos hp] at h; cases h
      · rw [if_neg hp] at h
        dsimp only at h
        refine ⟨total, ?_, by simpa using hp, ?_⟩
        · rw [getReleaseForCapacityTarget] at hre
          rcases how : ct.ownerReferences with _ | ⟨o, rest⟩
          · rw [how] at hre; cases hre
          · rcases rest with _ | ⟨o2, rest2⟩
            · rw [how] at hre
              dsimp only at hre
              rcases hrel : env.releases o.name with _ | rel
              · rw [hrel] at hre; cases hre
              · rw [hrel] at hre
                dsimp only at hre
                by_cases hu : rel.uid ≠ o.uid
                · rw [if_pos hu] at hre; cases hre
                · rw [if_neg hu] at hre
                  cases hre
                  exact ⟨o, release, rfl, hrel, not_not.mp hu, hta⟩
            · rw [how] at hre; cases hre
        · injection h with h'
          exact h'.symm

/-! ### Condition-query lemmas -/

theorem any_map_replace (l : List ClusterCapacityCondition)
    (c : ClusterCapacityCondition) (t : ConditionType) (s : ConditionStatus)
    (h : t ≠ c.ctype) :
    (l.map (fun x => if x.ctype = c.ctype then c else x)).any
        (fun x => x.ctype = t && x.status = s) =
      l.any (fun x => x.ctype = t && x.status = s) := by
  induction l with
  | nil => rfl
  | cons x xs ih =>
    simp only [List.map_cons, List.any_cons, ih]
    congr 1
    by_cases hx : x.ctype = c.ctype
    · rw [if_pos hx]
      have h1 : (decide (c.ctype = t)) = false := by
        simp [Ne.symm h]
      have h2 : (decide (x.ctype = t)) = false := by
        simp [hx, Ne.symm h]
      simp [h1, h2]
    · rw [if_neg hx]

theorem any_map_replace_self (l : List ClusterCapacityCondition)
    (c : ClusterCapacityCondition) (s : ConditionStatus) :
    (l.map (fun x => if x.ctype = c.ctype then c else x)).any
        (fun x => x.ctype = c.ctype && x.status = s) =
      (l.any (fun x => x.ctype = c.ctype) && decide (c.status = s)) := by
  induction l with
  | nil => rfl
  | cons x xs ih =>
    simp only [List.map_cons, List.any_cons, ih]
    by_cases hx : x.ctype = c.ctype
    · rw [if_pos hx]
      simp only [hx, decide_True, Bool.true_and]
      cases hcs : decide (c.status = s) <;> simp [hcs]
    · rw [if_neg hx]
      simp only [hx, decide_False, Bool.false_and, Bool.false_or]

/-- Setting a condition of one type leaves queries about the other type
unchanged. -/
theorem hasCondition_setCond_other (e : ClusterCapacityStatus)
    (c : ClusterCapacityCondition) (t : ConditionType) (s : ConditionStatus)
    (h : t ≠ c.ctype) :
    hasCondition (setClusterCapacityCondition e c) t s = hasCondition e t s := by
  rw [hasCondition, setClusterCapacityCondition]
  dsimp only
  by_cases hany : e.conditions.any (fun x => x.ctype = c.ctype)
  · rw [if_pos hany]
    exact any_map_replace e.conditions c t s h
  · rw [if_neg hany, List.any_append]
    have : ((fun x : ClusterCapacityCondition =>
        x.ctype = t && x.status = s) c) = false := by
      simp [Ne.symm h]
    simp [hasCondition, this]

/-- After setting a condition, the query for that type answers exactly
according to the condition just set. -/
theorem hasCondition_setCond_self (e : ClusterCapacityStatus)
    (c : ClusterCapacityCondition) (s : ConditionStatus) :
    hasCondition (setClusterCapacityCondition e c) c.ctype s =
      decide (c.status = s) := by
  rw [hasCondition, setClusterCapacityCondition]
  dsimp only
  by_cases hany : e.conditions.any (fun x => x.ctype = c.ctype)
  · rw [if_pos hany, any_map_replace_self, hany, Bool.true_and]
  · rw [if_neg hany, List.any_append]
    have hfalse : e.conditions.any
        (fun x => x.ctype = c.ctype && x.status = s) = false := by
      rw [List.any_eq_false]
      intro x hx
      have := (List.any_eq_false.mp (Bool.not_eq_true _ ▸ hany)) x hx
      simp only [Bool.and_eq_true, decide_eq_true_eq, not_and] at this ⊢
      intro hc
      exact absurd hc this
    rw [hfalse, Bool.false_or]
    simp [List.any_cons]

/-- When the loop did not panic, the handler returns the completed result:
exactly one update attempt carrying the sorted status, the update-failure
warning when the update errs, and the final Normal event. -/
theorem syncHandler_completed_eq (env : Env) (ct : CapacityTarget)
    (owner : OwnerReference) (release : Release) (total : ℤ)
    (h1 : ct.ownerReferences = [owner])
    (h2 : env.releases owner.name = some release)
    (h3 : release.uid = owner.uid)
    (h4 : release.totalReplicas = some total)
    (h5 : (syncedState env total ct).panicked = false) :
    capacityTargetSyncHandler env ct =
      ⟨.completed, (syncedState env total ct).patchCalls,
        some { ct with status :=
          sortByClusterName (syncedState env total ct).status },
        (syncedState env total ct).events
          ++ (match env.updateError with
              | some _ => [⟨.warning, "FailedCapacityTargetChange"⟩]
              | none => [])
          ++ [⟨.normal, "CapacityTargetChanged"⟩]⟩ := by
  rw [capacityTargetSyncHandler, getReleaseForCapacityTarget, h1]
  dsimp only
  rw [h2]
  dsimp only
  rw [if_neg (by simp [h3])]
  dsimp only
  rw [h4]
  dsimp only
  rw [if_neg (by simp [h5])]

/-- When the loop panicked, the handler crashes with no update attempted. -/
theorem syncHandler_panicked_eq (env : Env) (ct : CapacityTarget)
    (owner : OwnerReference) (release : Release) (total : ℤ)
    (h1 : ct.ownerReferences = [owner])
    (h2 : env.releases owner.name = some release)
    (h3 : release.uid = owner.uid)
    (h4 : release.totalReplicas = some total)
    (h5 : (syncedState env total ct).panicked = true) :
    capacityTargetSyncHandler env ct =
      ⟨.panicked, (syncedState env total ct).patchCalls, none,
        (syncedState env total ct).events⟩ := by
  rw [capacityTargetSyncHandler, getReleaseForCapacityTarget, h1]
  dsimp only
  rw [h2]
  dsimp only
  rw [if_neg (by simp [h3])]
  dsimp only
  rw [h4]
  dsimp only
  rw [if_pos h5]

/-! ## The claims -/

/-- C1 (corrected), counterexample: the spec says the replica count equals
`ceil(percent / 100 * total)`, but already at total = 25, percent = 28 the
float64 computation returns 8 while the exact ceiling is 7 (the binary64
value of 28/100 lies just above the rational 28/100, and multiplying by 25
rounds to just above 7). -/
theorem c1_counterexample :
    calculateReplicaCountFromPercentage 25 28 = 8 ∧
    ⌈(28 : ℚ) / 100 * 25⌉ = 7 ∧
    calculateReplicaCountFromPercentage 25 28 ≠ ⌈(28 : ℚ) / 100 * 25⌉ := by
  refine ⟨by decide, by decide, by decide⟩

/-- C1 (corrected), amended: for every total in `[0, 2^31)` and percent in
`[0, 100]`, `calculateReplicaCountFromPercentage(total, percent)` lies
between `ceil(percent/100 * total)` and `ceil(percent/100 * total) + 1`
(the float64 rounding can push it one above the exact ceiling but never
below); the spec's concrete examples hold: total = 10 with percent = 33
yields 4, percent = 100 yields 10 and percent = 0 yields 0. -/
theorem c1_calculateReplicaCount_amended :
    (∀ t p : ℤ, 0 ≤ t → t < 2 ^ 31 → 0 ≤ p → p ≤ 100 →
      ⌈((p * t : ℤ) : ℚ) / 100⌉ ≤ calculateReplicaCountFromPercentage t p ∧
        calculateReplicaCountFromPercentage t p ≤
          ⌈((p * t : ℤ) : ℚ) / 100⌉ + 1) ∧
    calculateReplicaCountFromPercentage 10 33 = 4 ∧
    calculateReplicaCountFromPercentage 10 100 = 10 ∧
    calculateReplicaCountFromPercentage 10 0 = 0 :=
  ⟨calculateReplicaCount_bounds, by decide, by decide, by decide⟩

/-- C1 witness: the amended bound at total = 25, percent = 28. -/
theorem c1_witness :
    (0 : ℤ) ≤ 25 ∧ (25 : ℤ) < 2 ^ 31 ∧ (0 : ℤ) ≤ 28 ∧ (28 : ℤ) ≤ 100 ∧
    (⌈((28 * 25 : ℤ) : ℚ) / 100⌉ ≤ calculateReplicaCountFromPercentage 25 28 ∧
      calculateReplicaCountFromPercentage 25 28 ≤
        ⌈((28 * 25 : ℤ) : ℚ) / 100⌉ + 1) :=
  ⟨by decide, by decide, by decide, by decide,
    c1_calculateReplicaCount_amended.1 25 28 (by decide) (by decide)
      (by decide) (by decide)⟩

/-- C8 (corrected), counterexample: the spec says both capacity-math
functions reject a non-positive total by signaling a configuration error;
`calculateReplicaCountFromPercentage` has no error path at all — at
total = -10, percent = 50 it silently returns the computed value -5,
exactly the ceiling of the (float) product. -/
theorem c8_counterexample :
    calculateReplicaCountFromPercentage (-10) 50 = -5 ∧
    calculateReplicaCountFromPercentage (-10) 50 =
      ⌈(50 : ℚ) / 100 * (-10)⌉ := by
  refine ⟨by decide, by decide⟩

/-- C8 (corrected), amended: `calculateReplicaCountFromPercentage` does not
validate its total: its signature has no error return.  For total = 0 it
returns 0 for every percent, for every non-positive total and non-negative
percent it returns the computed non-positive value, and for total = -10,
percent = 50 that value is -5. -/
theorem c8_nonpositive_total_amended :
    (∀ p : ℤ, calculateReplicaCountFromPercentage 0 p = 0) ∧
    (∀ t p : ℤ, t ≤ 0 → 0 ≤ p → calculateReplicaCountFromPercentage t p ≤ 0) ∧
    calculateReplicaCountFromPercentage (-10) 50 = -5 := by
  refine ⟨?_, ?_, by decide⟩
  · intro p
    rw [calculateReplicaCountFromPercentage]
    rw [show ((0 : ℤ) : ℚ) = 0 by norm_num, mul_zero, roundDouble_zero]
    exact Int.ceil_zero
  · intro t p ht hp
    rw [calculateReplicaCountFromPercentage]
    have : roundDouble (roundDouble ((p : ℚ) / 100) * (t : ℚ)) ≤ 0 := ?_
    · exact Int.ceil_le.mpr (by exact_mod_cast this)
    apply roundDouble_nonpos
    apply mul_nonpos_of_nonneg_of_nonpos
    · apply roundDouble_nonneg
      positivity
    · exact_mod_cast ht

/-- C8 witness: the amended non-positive-total behaviour at
total = -10, percent = 50. -/
theorem c8_witness :
    (-10 : ℤ) ≤ 0 ∧ (0 : ℤ) ≤ 50 ∧
    calculateReplicaCountFromPercentage (-10) 50 ≤ 0 :=
  ⟨by decide, by decide,
    c8_nonpositive_total_amended.2.1 (-10) 50 (by decide) (by decide)⟩

/-- C10 (confirmed): with a cached deployment whose `Spec.Replicas` is nil
(the patch result having been discarded at line 289), `getSadPods` enters
the pod-count branch and `NewInvalidPodCountError(*targetDeployment.Spec.
Replicas, ...)` dereferences the nil pointer: the sync crashes instead of
recording the Ready=False/WrongPodCount condition — no update is attempted
and the patch had already been issued. -/
theorem c10_nil_replicas_panic :
    (getSadPods c10Env ⟨"dep", none, 0⟩ (zeroClusterStatus "c1")).2 =
      .panicked ∧
    (capacityTargetSyncHandler c10Env c10Ct).outcome = .panicked ∧
    (capacityTargetSyncHandler c10Env c10Ct).updateAttempted = none ∧
    (capacityTargetSyncHandler c10Env c10Ct).patchCalls =
      [⟨"c1", "dep", 2, true⟩] := by
  refine ⟨by decide, by decide, by decide, by decide⟩

/-- C2 (confirmed): when the owner-reference count differs from 1, or the
single owner's UID differs from the live release's, the sync returns an
error having touched nothing: no patch call, no update attempt, no event. -/
theorem c2_owner_validation (env : Env) (ct : CapacityTarget)
    (h : ct.ownerReferences.length ≠ 1 ∨
      (∃ o rel, ct.ownerReferences = [o] ∧ env.releases o.name = some rel ∧
        rel.uid ≠ o.uid)) :
    ∃ err, capacityTargetSyncHandler env ct =
      ⟨.failed err, [], none, []⟩ := by
  rcases h with h | ⟨o, rel, how, hrel, hne⟩
  · rcases hl : ct.ownerReferences with _ | ⟨o, rest⟩
    · refine ⟨.multipleOwnerReferences 0, ?_⟩
      rw [capacityTargetSyncHandler, getReleaseForCapacityTarget, hl]
      rfl
    · rcases rest with _ | ⟨o2, rest2⟩
      · exact absurd (by simp [hl] : ct.ownerReferences.length = 1) h
      · refine ⟨.multipleOwnerReferences (o :: o2 :: rest2).length, ?_⟩
        rw [capacityTargetSyncHandler, getReleaseForCapacityTarget, hl]
  · refine ⟨.releaseIsGone, ?_⟩
    rw [capacityTargetSyncHandler, getReleaseForCapacityTarget, how]
    dsimp only
    rw [hrel]
    dsimp only
    rw [if_pos hne]

/-- C2 witness: a capacity target with zero owner references fails the sync
with no patch, no update and no event. -/
theorem c2_witness :
    c2Ct.ownerReferences.length ≠ 1 ∧
    ∃ err, capacityTargetSyncHandler c2Env c2Ct =
      ⟨.failed err, [], none, []⟩ :=
  ⟨by decide, c2_owner_validation c2Env c2Ct (Or.inl (by decide))⟩

/-- C3 (confirmed): every object the handler passes to the update call has
its `Status.Clusters` sorted by cluster name, whatever the order of
`Spec.Clusters` or of the prior status entries. -/
theorem c3_status_sorted (env : Env) (ct u : CapacityTarget)
    (h : (capacityTargetSyncHandler env ct).updateAttempted = some u) :
    List.Sorted (fun a b : ClusterCapacityStatus => a.name ≤ b.name)
      u.status := by
  obtain ⟨total, _, _, hu⟩ := syncHandler_some_inv env ct u h
  rw [hu]
  exact sortByClusterName_sorted _

/-- C3 witness: spec clusters and prior status both listed as b before a;
the persisted status is sorted a before b. -/
theorem c3_witness :
    ∃ u, (capacityTargetSyncHandler c3Env c3Ct).updateAttempted = some u ∧
      List.Sorted (fun a b : ClusterCapacityStatus => a.name ≤ b.name)
        u.status := by
  have h1 : (capacityTargetSyncHandler c3Env c3Ct).updateAttempted =
      some { c3Ct with status :=
        sortByClusterName (syncedState c3Env 10 c3Ct).status } := by decide
  exact ⟨_, h1, c3_status_sorted c3Env c3Ct _ h1⟩

/-- C5 (confirmed): a cluster whose deployment listing matches a number of
deployments other than exactly one gets Ready=False with reason
MissingDeployment, no patch call is issued for it, a warning event is
recorded, and the loop moves on (the step never panics there). -/
theorem c5_missing_deployment (env : Env) (total : ℤ)
    (cs : ClusterCapacityTarget) (e : ClusterCapacityStatus)
    (ds : List Deployment) (hd : env.deployments cs.name = .ok ds)
    (hlen : ds.length ≠ 1) :
    reconcileClusterSpec env total cs e =
      .done (setClusterCapacityCondition e
        ⟨.ready, .conditionFalse, MissingDeployment,
          "expected exactly 1 deployment on cluster " ++ cs.name⟩)
        [] [⟨.warning, "FailedCapacityChange"⟩] ∧
    ∀ s : LoopState, (syncStep env total s cs).panicked = s.panicked := by
  have hrec : ∀ e' : ClusterCapacityStatus,
      reconcileClusterSpec env total cs e' =
        .done (setClusterCapacityCondition e'
          ⟨.ready, .conditionFalse, MissingDeployment,
            "expected exactly 1 deployment on cluster " ++ cs.name⟩)
          [] [⟨.warning, "FailedCapacityChange"⟩] := by
    intro e'
    have hft : findTargetDeploymentForClusterSpec env cs e' =
        (setClusterCapacityCondition e'
          ⟨.ready, .conditionFalse, MissingDeployment,
            "expected exactly 1 deployment on cluster " ++ cs.name⟩, none) := by
      rw [findTargetDeploymentForClusterSpec, hd]
      rcases ds with _ | ⟨d, rest⟩
      · rfl
      · rcases rest with _ | ⟨d2, rest2⟩
        · exact absurd rfl hlen
        · rfl
    rw [reconcileClusterSpec, hft]
  refine ⟨hrec e, ?_⟩
  intro s
  rw [syncStep]
  cases hL : lastIndexOf cs.name s.status with
  | none =>
    dsimp only
    rw [hrec (zeroClusterStatus cs.name)]
  | some i =>
    dsimp only
    rw [hrec (s.status.getD i (zeroClusterStatus cs.name))]

/-- C5 witness: two matching deployments on cluster c1. -/
theorem c5_witness :
    c5Env.deployments "c1" =
      .ok [⟨"d1", some 1, 1⟩, ⟨"d2", some 1, 1⟩] ∧
    ([(⟨"d1", some 1, 1⟩ : Deployment), ⟨"d2", some 1, 1⟩]).length ≠ 1 ∧
    (reconcileClusterSpec c5Env 10 ⟨"c1", 50⟩ (zeroClusterStatus "c1") =
      .done (setClusterCapacityCondition (zeroClusterStatus "c1")
        ⟨.ready, .conditionFalse, MissingDeployment,
          "expected exactly 1 deployment on cluster " ++ "c1"⟩)
        [] [⟨.warning, "FailedCapacityChange"⟩] ∧
      ∀ s : LoopState,
        (syncStep c5Env 10 s ⟨"c1", 50⟩).panicked = s.panicked) :=
  ⟨by decide, by decide,
    c5_missing_deployment c5Env 10 ⟨"c1", 50⟩ (zeroClusterStatus "c1")
      [⟨"d1", some 1, 1⟩, ⟨"d2", some 1, 1⟩] (by decide) (by decide)⟩

/-- C6 (confirmed): when the pod listing reports a pod count different from
the cached deployment's spec replicas, the cluster's reconciliation stops
with Ready=False reason WrongPodCount, set on top of the
availability-updated entry; its sad-pod list is untouched, Ready is not
True, and its Operational condition is exactly what it was before. -/
theorem c6_wrong_pod_count (env : Env) (total : ℤ)
    (cs : ClusterCapacityTarget) (e : ClusterCapacityStatus) (d : Deployment)
    (r podCount : ℤ) (sadCount : ℕ) (sadPods : List PodStatus)
    (hd : env.deployments cs.name = .ok [d]) (hr : d.replicas = some r)
    (hpods : env.pods e.name = .ok podCount sadCount sadPods)
    (hne : r ≠ podCount) (hpatch : env.patch cs.name = .ok) :
    ∃ pcs e', reconcileClusterSpec env total cs e = .done e' pcs [] ∧
      e' = setClusterCapacityCondition
        { e with availableReplicas := d.availableReplicas,
                 achievedPercent :=
                   calculatePercentageFromAmount total d.availableReplicas }
        ⟨.ready, .conditionFalse, WrongPodCount, "invalid pod count"⟩ ∧
      e'.sadPods = e.sadPods ∧
      hasCondition e' .ready .conditionTrue = false ∧
      (∀ st, hasCondition e' .operational st = hasCondition e .operational st) := by
  have hft : findTargetDeploymentForClusterSpec env cs e = (e, some d) := by
    rw [findTargetDeploymentForClusterSpec, hd]
  have hobs : ∀ pcs : List PatchCall,
      reconcileObserve env total d e pcs =
        .done (setClusterCapacityCondition
          { e with availableReplicas := d.availableReplicas,
                   achievedPercent :=
                     calculatePercentageFromAmount total d.availableReplicas }
          ⟨.ready, .conditionFalse, WrongPodCount, "invalid pod count"⟩)
          pcs [] := by
    intro pcs
    rw [reconcileObserve]
    have hsp : getSadPods env d
        { e with availableReplicas := d.availableReplicas,
                 achievedPercent :=
                   calculatePercentageFromAmount total d.availableReplicas } =
        (setClusterCapacityCondition
          { e with availableReplicas := d.availableReplicas,
                   achievedPercent :=
                     calculatePercentageFromAmount total d.availableReplicas }
          ⟨.ready, .conditionFalse, WrongPodCount, "invalid pod count"⟩,
          .failed) := by
      rw [getSadPods]
      dsimp only
      rw [hpods]
      dsimp only
      rw [hr]
      dsimp only
      rw [if_pos hne]
    rw [hsp]
  have hmain : ∃ pcs, reconcileClusterSpec env total cs e =
      .done (setClusterCapacityCondition
        { e with availableReplicas := d.availableReplicas,
                 achievedPercent :=
                   calculatePercentageFromAmount total d.availableReplicas }
        ⟨.ready, .conditionFalse, WrongPodCount, "invalid pod count"⟩)
        pcs [] := by
    rw [reconcileClusterSpec, hft]
    dsimp only
    by_cases hrc : d.replicas =
        some (calculateReplicaCountFromPercentage total cs.percent)
    · rw [if_pos hrc, hobs]
      exact ⟨[], rfl⟩
    · rw [if_neg hrc]
      have hpt : patchDeploymentWithReplicaCount env d cs.name
          (calculateReplicaCountFromPercentage total cs.percent) e =
          (e, true, [⟨cs.name, d.name,
            calculateReplicaCountFromPercentage total cs.percent, true⟩]) := by
        rw [patchDeploymentWithReplicaCount, hpatch]
      rw [hpt]
      dsimp only
      rw [hobs]
      exact ⟨_, rfl⟩
  obtain ⟨pcs, hpcs⟩ := hmain
  refine ⟨pcs, _, hpcs, rfl, rfl, ?_, ?_⟩
  · exact hasCondition_setCond_self _
      ⟨.ready, .conditionFalse, WrongPodCount, "invalid pod count"⟩
      .conditionTrue
  · intro st
    exact hasCondition_setCond_other _
      ⟨.ready, .conditionFalse, WrongPodCount, "invalid pod count"⟩
      .operational st (by intro hc; cases hc)

/-- C6 witness: 3 replicas requested, 2 pods reported. -/
theorem c6_witness :
    c6Env.deployments "c1" = .ok [⟨"dep", some 3, 2⟩] ∧
    (Deployment.mk "dep" (some 3) 2).replicas = some 3 ∧
    c6Env.pods "c1" = .ok 2 0 [] ∧ (3 : ℤ) ≠ 2 ∧ c6Env.patch "c1" = .ok ∧
    ∃ pcs e', reconcileClusterSpec c6Env 10 ⟨"c1", 30⟩
          (zeroClusterStatus "c1") = .done e' pcs [] ∧
      e' = setClusterCapacityCondition
        ⟨"c1", 2, calculatePercentageFromAmount 10 2, [], []⟩
        ⟨.ready, .conditionFalse, WrongPodCount, "invalid pod count"⟩ ∧
      e'.sadPods = (zeroClusterStatus "c1").sadPods ∧
      hasCondition e' .ready .conditionTrue = false ∧
      (∀ st, hasCondition e' .operational st =
        hasCondition (zeroClusterStatus "c1") .operational st) :=
  ⟨by decide, by decide, by decide, by decide, by decide,
    c6_wrong_pod_count c6Env 10 ⟨"c1", 30⟩ (zeroClusterStatus "c1")
      ⟨"dep", some 3, 2⟩ 3 2 0 [] (by decide) (by decide) (by decide)
      (by decide) (by decide)⟩

/-- C4 (confirmed): (i) in general, every cluster of `Spec.Clusters` has an
entry in any persisted status — one cluster's failure never prevents the
others from being processed; (ii) in the concrete three-cluster scenario
where only `b`'s informer store fails, the persisted status carries entries
for `a`, `b` and `c`, exactly `b` is marked Operational=False, and the other
two were fully processed (Ready=True and Operational=True). -/
theorem c4_isolated_failure :
    (∀ (env : Env) (ct u : CapacityTarget),
      (capacityTargetSyncHandler env ct).updateAttempted = some u →
      ∀ cs ∈ ct.spec, ∃ e ∈ u.status, e.name = cs.name) ∧
    ((capacityTargetSyncHandler c4Env c4Ct).updateAttempted.isSome = true ∧
      (∃ e ∈ ((capacityTargetSyncHandler c4Env c4Ct).updateAttempted.getD
        c4Ct).status, e.name = "a") ∧
      (∃ e ∈ ((capacityTargetSyncHandler c4Env c4Ct).updateAttempted.getD
        c4Ct).status, e.name = "b") ∧
      (∃ e ∈ ((capacityTargetSyncHandler c4Env c4Ct).updateAttempted.getD
        c4Ct).status, e.name = "c") ∧
      (∀ e ∈ ((capacityTargetSyncHandler c4Env c4Ct).updateAttempted.getD
        c4Ct).status,
        hasCondition e .operational .conditionFalse = true → e.name = "b") ∧
      (∃ e ∈ ((capacityTargetSyncHandler c4Env c4Ct).updateAttempted.getD
        c4Ct).status,
        e.name = "b" ∧ hasCondition e .operational .conditionFalse = true) ∧
      (∀ e ∈ ((capacityTargetSyncHandler c4Env c4Ct).updateAttempted.getD
        c4Ct).status, e.name ≠ "b" →
        hasCondition e .ready .conditionTrue = true ∧
          hasCondition e .operational .conditionTrue = true)) := by
  constructor
  · intro env ct u h cs hcs
    obtain ⟨total, _, hnp, hu⟩ := syncHandler_some_inv env ct u h
    rw [hu]
    dsimp only
    obtain ⟨e, he, hen⟩ :=
      syncLoop_processes env total ct.spec cs hcs ⟨ct.status, [], [], false⟩ hnp
    exact ⟨e, (sortByClusterName_perm _).mem_iff.mpr he, hen⟩
  · exact ⟨by decide, by decide, by decide, by decide, by decide, by decide,
      by decide⟩

/-- C4 witness: the general entry-presence part at the three-cluster
scenario, for cluster `a`. -/
theorem c4_witness :
    ∃ e ∈ ((capacityTargetSyncHandler c4Env c4Ct).updateAttempted.getD
      c4Ct).status, e.name = (⟨"a", 30⟩ : ClusterCapacityTarget).name := by
  have h1 : (capacityTargetSyncHandler c4Env c4Ct).updateAttempted =
      some ((capacityTargetSyncHandler c4Env c4Ct).updateAttempted.getD
        c4Ct) := by decide
  exact c4_isolated_failure.1 c4Env c4Ct _ h1 ⟨"a", 30⟩ (by decide)

/-- C7 (corrected), counterexample: a sync that passes owner and annotation
validation can crash on the nil-replicas dereference before attempting any
update and before the final event — so "attempts exactly one status update
... in every such sync" fails as stated. -/
theorem c7_counterexample :
    c7Ct.ownerReferences = [⟨"rel", "u1"⟩] ∧
    c7Env.releases "rel" = some ⟨"u1", some 3⟩ ∧
    (capacityTargetSyncHandler c7Env c7Ct).outcome = .panicked ∧
    (capacityTargetSyncHandler c7Env c7Ct).updateAttempted = none ∧
    (capacityTargetSyncHandler c7Env c7Ct).events = [] := by
  refine ⟨by decide, by decide, by decide, by decide, by decide⟩

/-- C7 (corrected), amended: for every sync that passes owner and annotation
validation and does not panic, the handler completes (returns nil) with
exactly one update attempt; if the update fails a Warning event is recorded
and nil is still returned; and the last event of every such sync is the
Normal CapacityTargetChanged summary. -/
theorem c7_sync_persists_amended (env : Env) (ct : CapacityTarget)
    (owner : OwnerReference) (release : Release) (total : ℤ)
    (h1 : ct.ownerReferences = [owner])
    (h2 : env.releases owner.name = some release)
    (h3 : release.uid = owner.uid)
    (h4 : release.totalReplicas = some total)
    (h5 : (capacityTargetSyncHandler env ct).outcome ≠ .panicked) :
    (capacityTargetSyncHandler env ct).outcome = .completed ∧
    (capacityTargetSyncHandler env ct).updateAttempted.isSome = true ∧
    (capacityTargetSyncHandler env ct).events.getLast? =
      some ⟨.normal, "CapacityTargetChanged"⟩ ∧
    (∀ msg, env.updateError = some msg →
      (⟨.warning, "FailedCapacityTargetChange"⟩ : Event) ∈
        (capacityTargetSyncHandler env ct).events) := by
  by_cases hp : (syncedState env total ct).panicked
  · exfalso
    apply h5
    rw [syncHandler_panicked_eq env ct owner release total h1 h2 h3 h4 hp]
  · have heq := syncHandler_completed_eq env ct owner release total h1 h2 h3 h4
      (by simpa using hp)
    rw [heq]
    refine ⟨rfl, rfl, ?_, ?_⟩
    · dsimp only
      rw [List.getLast?_concat]
    · intro msg hmsg
      dsimp only
      rw [hmsg]
      dsimp only
      exact List.mem_append_left _ (List.mem_append_right _ (by simp))

/-- C7 witness: the amended behaviour in the scenario whose update call
fails: completed, one update attempt, warning recorded, final Normal event
last. -/
theorem c7_witness :
    c7okCt.ownerReferences = [⟨"rel", "u1"⟩] ∧
    c7okEnv.releases "rel" = some ⟨"u1", some 10⟩ ∧
    (capacityTargetSyncHandler c7okEnv c7okCt).outcome ≠ .panicked ∧
    ((capacityTargetSyncHandler c7okEnv c7okCt).outcome = .completed ∧
      (capacityTargetSyncHandler c7okEnv c7okCt).updateAttempted.isSome = true ∧
      (capacityTargetSyncHandler c7okEnv c7okCt).events.getLast? =
        some ⟨.normal, "CapacityTargetChanged"⟩ ∧
      (∀ msg, c7okEnv.updateError = some msg →
        (⟨.warning, "FailedCapacityTargetChange"⟩ : Event) ∈
          (capacityTargetSyncHandler c7okEnv c7okCt).events)) :=
  ⟨by decide, by decide, by decide,
    c7_sync_persists_amended c7okEnv c7okCt ⟨"rel", "u1"⟩ ⟨"u1", some 10⟩ 10
      (by decide) (by decide) (by decide) (by decide) (by decide)⟩

/-- C9 (confirmed): a cluster of `Spec.Clusters` with no pre-existing entry
in `Status.Clusters` (and named once in the spec) ends the sync with its
persisted entry exactly the zero-valued entry carrying only the name: the
reconciler's mutations went to the local struct that `append` had copied,
not to the slice element. -/
theorem c9_fresh_entry_zero (env : Env) (ct : CapacityTarget) (n : String)
    (pre post : List ClusterCapacityTarget) (c0 : ClusterCapacityTarget)
    (hspec : ct.spec = pre ++ c0 :: post) (hc0 : c0.name = n)
    (hpre : ∀ c ∈ pre, c.name ≠ n) (hpost : ∀ c ∈ post, c.name ≠ n)
    (hstat : ∀ e ∈ ct.status, e.name ≠ n) (u : CapacityTarget)
    (h : (capacityTargetSyncHandler env ct).updateAttempted = some u) :
    (∃ e ∈ u.status, e.name = n) ∧
    ∀ e ∈ u.status, e.name = n → e = zeroClusterStatus n := by
  obtain ⟨total, _, hnp, hu⟩ := syncHandler_some_inv env ct u h
  subst hu
  dsimp only
  rw [syncedState, hspec] at hnp ⊢
  rw [syncLoop_append] at hnp ⊢
  set s₁ : LoopState :=
    syncLoop env total pre ⟨ct.status, [], [], false⟩ with hs₁
  have habs₁ : ∀ e ∈ s₁.status, e.name ≠ n :=
    syncLoop_absent env total pre n hpre ⟨ct.status, [], [], false⟩ hstat
  have hs₁np : s₁.panicked = false := by
    by_contra hcon
    rw [syncLoop_panicked_id env total (c0 :: post) s₁
      (by simpa using hcon)] at hnp
    rw [hnp] at hcon
    exact hcon rfl
  rw [syncLoop] at hnp ⊢
  rw [if_neg (by simp [hs₁np])] at hnp ⊢
  set s₂ : LoopState := syncStep env total s₁ c0 with hs₂
  have hstat₂ : s₂.status = s₁.status ++ [zeroClusterStatus n] := by
    rw [hs₂, ← hc0]
    exact syncStep_appends_zero env total s₁ c0 (by rw [hc0]; exact habs₁)
  have hzero₂ : ∀ e ∈ s₂.status, e.name = n → e = zeroClusterStatus n := by
    rw [hstat₂]
    intro e he hen
    rcases List.mem_append.mp he with h' | h'
    · exact absurd hen (habs₁ e h')
    · simpa using h'
  have hmem₂ : ∃ e ∈ s₂.status, e.name = n := by
    rw [hstat₂]
    exact ⟨zeroClusterStatus n, List.mem_append_right _ (by simp), rfl⟩
  constructor
  · obtain ⟨e, he, hen⟩ := syncLoop_mem env total post n s₂ hmem₂
    exact ⟨e, (sortByClusterName_perm _).mem_iff.mpr he, hen⟩
  · intro e he hen
    exact syncLoop_zeroOnly env total post n hpost s₂ hzero₂ e
      ((sortByClusterName_perm _).mem_iff.mp he) hen

/-- C9 witness: cluster `a`, fresh in status, whose reconciliation would
set availability 3, achieved percent 30, a PodsNotReady condition and a
sad-pod list — the persisted entry is nevertheless the zero entry. -/
theorem c9_witness :
    c9Ct.spec = [] ++ (⟨"a", 30⟩ : ClusterCapacityTarget) :: [] ∧
    (∀ e ∈ c9Ct.status, e.name ≠ "a") ∧
    ∃ u, (capacityTargetSyncHandler c9Env c9Ct).updateAttempted = some u ∧
      (∃ e ∈ u.status, e.name = "a") ∧
      ∀ e ∈ u.status, e.name = "a" → e = zeroClusterStatus "a" := by
  have h1 : (capacityTargetSyncHandler c9Env c9Ct).updateAttempted =
      some { c9Ct with status :=
        sortByClusterName (syncedState c9Env 10 c9Ct).status } := by decide
  refine ⟨by decide, by decide, ⟨_, h1, ?_⟩⟩
  exact c9_fresh_entry_zero c9Env c9Ct "a" [] [] ⟨"a", 30⟩ (by decide)
    (by decide) (by simp) (by simp) (by decide) _ h1

end Shipper
